import Mathlib

/-!
# Verification of the radCAD execution engine (`src/core/src/lib.rs`)

This file gives a shallow embedding of the radCAD simulation engine —
`generate_parameter_sweep`, `reduce_signals` and `single_run` — and proves
the specification claims about it.

Modelling choices:
* Python dictionaries are embedded as ordered association lists
  (`Dict := List (String × Value)`); `set_item` replaces the value at the
  existing position of the key (Python insertion-order semantics) or
  appends.
* Python values are a tagged `Value` type (integers and strings suffice for
  every claim); Python `__add__` is `Value.add`, failing on mixed kinds.
* User-supplied policy / state-update functions are opaque callables: either
  a genuine function or a non-callable object (calling the latter raises a
  Python `TypeError`).  A user function may return a well-shaped result,
  return a badly-shaped object, or raise an exception.
* Fallible engine code returns `Except EngineFailure`; Rust `expect` panics
  that are reachable from user input are dedicated `EngineFailure`
  constructors (they are observably distinct from Python exceptions).
* A second, heap-based embedding of `single_run` (`h_single_run`) gives
  substates explicit addresses and lets update functions mutate (in place)
  the substate argument they receive; it is related to the pure embedding
  to settle the isolation claim's deep-copy conjuncts.
* A third, object-level embedding (`o_single_run`) gives *container
  values* explicit identity, exhibiting the nested-object sharing that the
  engine's shallow `PyDict::copy` snapshot chain produces.
-/

namespace RadCAD

/-- A Python value living in a state dictionary, a parameter set or a
signal mapping: integers, strings, and the `NotImplemented` object (which
`int.__add__` returns on a non-int argument and the signal merge then
stores as an ordinary value).  Container values, whose object identity the
isolation claim is about, live in the separate object-level model
(`OValue`/`OHeap`) further below. -/
inductive Value where
  | int : Int → Value
  | str : String → Value
  | notImplemented : Value
deriving DecidableEq, Repr

/-- The result of `value_.call_method("__add__", (value,))` (lib.rs 367):
`some` when the call returns — possibly returning the `NotImplemented`
object — and `none` when it raises (which hits the
`expect("reduce_signals")` panic).  `int.__add__` returns the sum on an
int argument and `NotImplemented` on anything else; `str.__add__`
concatenates strings and raises `TypeError` on anything else;
`NotImplemented` has no `__add__` method, so the call raises
`AttributeError`. -/
def Value.add : Value → Value → Option Value
  | .int a, .int b => some (.int (a + b))
  | .int _, _ => some .notImplemented
  | .str a, .str b => some (.str (a ++ b))
  | .str _, _ => none
  | .notImplemented, _ => none

/-- A Python dictionary with string keys, embedded as an ordered
association list (Python dictionaries iterate in insertion order). -/
abbrev Dict := List (String × Value)

/-- Python `dict.__setitem__`: replace the value at the first occurrence of
the key, keeping its position, otherwise append the new entry. -/
def setItem : Dict → String → Value → Dict
  | [], k, v => [(k, v)]
  | (k', v') :: rest, k, v =>
      if k' = k then (k, v) :: rest else (k', v') :: setItem rest k v

/-- Python `dict.__getitem__`-style lookup (first occurrence). -/
def dlookup : Dict → String → Option Value
  | [], _ => none
  | (k', v') :: rest, k => if k' = k then some v' else dlookup rest k

/-- Python `key in dict`. -/
def containsKey (d : Dict) (k : String) : Bool :=
  (dlookup d k).isSome

@[simp] theorem dlookup_nil (k : String) : dlookup [] k = none := rfl

theorem dlookup_setItem_self (d : Dict) (k : String) (v : Value) :
    dlookup (setItem d k v) k = some v := by
  induction d with
  | nil => simp [setItem, dlookup]
  | cons hd tl ih =>
      obtain ⟨k', v'⟩ := hd
      by_cases h : k' = k <;> simp [setItem, dlookup, h, ih]

theorem dlookup_setItem_ne (d : Dict) (k k' : String) (v : Value)
    (h : k' ≠ k) : dlookup (setItem d k v) k' = dlookup d k' := by
  induction d with
  | nil => simp [setItem, dlookup, Ne.symm h]
  | cons hd tl ih =>
      obtain ⟨k₀, v₀⟩ := hd
      by_cases h0 : k₀ = k
      · subst h0
        simp [setItem, dlookup, Ne.symm h]
      · by_cases h1 : k₀ = k'
        · subst h1
          simp [setItem, dlookup, h0]
        · simp [setItem, dlookup, h0, h1, ih]

theorem containsKey_setItem_self (d : Dict) (k : String) (v : Value) :
    containsKey (setItem d k v) k = true := by
  simp [containsKey, dlookup_setItem_self]

theorem containsKey_setItem_ne (d : Dict) (k k' : String) (v : Value)
    (h : k' ≠ k) : containsKey (setItem d k v) k' = containsKey d k' := by
  simp [containsKey, dlookup_setItem_ne d k k' v h]

/-- Python exceptions as observed through the engine: the exception class
plus its message, and the `RuntimeError`-wrapping the engine performs when
it converts a caught error.  User functions may raise any of these. -/
inductive PyExc where
  | keyError : String → PyExc
  | typeError : String → PyExc
  | runtimeError : String → PyExc
  | wrapped : PyExc → PyExc
deriving DecidableEq, Repr

/-- A failure of an engine entry point: either a Python exception returned
through `PyResult`, or one of the Rust `expect`/index panics that user
input can reach (observably distinct from Python exceptions). -/
inductive EngineFailure where
  | exc : PyExc → EngineFailure
  | fetchPrevPanic : EngineFailure
  | mergePanic : EngineFailure
  | sweepUnderflow : EngineFailure
deriving DecidableEq, Repr

/-! ## Parameter sweep expansion (`generate_parameter_sweep`, lib.rs 291-315) -/

/-- The `params` argument of `generate_parameter_sweep`: parameter name to
ordered sequence of candidate values. -/
abbrev SweepParams := List (String × List Value)

/-- lib.rs 293-299: running maximum of the value-sequence lengths. -/
def maxSeqLen (params : SweepParams) : Nat :=
  params.foldl (fun m kv => max m kv.2.length) 0

/-- lib.rs 304-308: `seq[i]` when `i < len(seq)`, else `seq[len(seq)-1]`;
when the sequence is empty the `len - 1` index underflows and the call
fails. -/
def sweepValue (seq : List Value) (i : Nat) : Except EngineFailure Value :=
  match seq.get? i with
  | some v => .ok v
  | none =>
      match seq.getLast? with
      | some v => .ok v
      | none => .error .sweepUnderflow

/-- lib.rs 302-310: build the parameter set for one sweep index by
`set_item`-ing the resolved value of every parameter in iteration order. -/
def buildParamSet : SweepParams → Nat → Dict → Except EngineFailure Dict
  | [], _, acc => .ok acc
  | (k, seq) :: rest, i, acc =>
      match sweepValue seq i with
      | .error e => .error e
      | .ok v => buildParamSet rest i (setItem acc k v)

/-- lib.rs 291-315: `generate_parameter_sweep`. -/
def generate_parameter_sweep (params : SweepParams) :
    Except EngineFailure (List Dict) :=
  (List.range (maxSeqLen params)).mapM (fun i => buildParamSet params i [])

/-- Total padded selection used to state what `sweepValue` returns on
non-empty sequences (the default is never used there). -/
def pickValue (seq : List Value) (i : Nat) : Value :=
  (seq.get? i).getD ((seq.getLast?).getD (.int 0))

theorem sweepValue_of_ne_nil (seq : List Value) (i : Nat) (h : seq ≠ []) :
    sweepValue seq i = .ok (pickValue seq i) := by
  unfold sweepValue pickValue
  cases hg : seq.get? i with
  | some v => simp
  | none =>
      cases hl : seq.getLast? with
      | some v => simp
      | none => exact absurd (List.getLast?_eq_none_iff.mp hl) h

theorem buildParamSet_of_ne_nil (params : SweepParams) (i : Nat)
    (h : ∀ kv ∈ params, kv.2 ≠ []) (acc : Dict) :
    buildParamSet params i acc =
      .ok (params.foldl (fun d kv => setItem d kv.1 (pickValue kv.2 i)) acc) := by
  induction params generalizing acc with
  | nil => rfl
  | cons hd tl ih =>
      obtain ⟨k, seq⟩ := hd
      have hne : seq ≠ [] := h (k, seq) (List.mem_cons_self _ _)
      rw [buildParamSet, sweepValue_of_ne_nil seq i hne]
      simpa using ih (fun kv hkv => h kv (List.mem_cons_of_mem _ hkv)) (setItem acc k (pickValue seq i))

theorem generate_parameter_sweep_of_ne_nil (params : SweepParams)
    (h : ∀ kv ∈ params, kv.2 ≠ []) :
    generate_parameter_sweep params =
      .ok ((List.range (maxSeqLen params)).map
        (fun i => params.foldl (fun d kv => setItem d kv.1 (pickValue kv.2 i)) [])) := by
  unfold generate_parameter_sweep
  induction (List.range (maxSeqLen params)) with
  | nil => rfl
  | cons hd tl ih =>
      rw [List.mapM_cons, buildParamSet_of_ne_nil params hd h]
      simp only [List.map_cons]
      rw [show (tl.mapM fun i => buildParamSet params i []) =
            .ok (tl.map fun i => params.foldl (fun d kv => setItem d kv.1 (pickValue kv.2 i)) []) from ih]
      rfl

theorem dlookup_foldl_not_mem (params : SweepParams) (i : Nat) (acc : Dict)
    (name : String) (h : name ∉ params.map Prod.fst) :
    dlookup (params.foldl (fun d kv => setItem d kv.1 (pickValue kv.2 i)) acc) name =
      dlookup acc name := by
  induction params generalizing acc with
  | nil => rfl
  | cons hd tl ih =>
      obtain ⟨k, seq⟩ := hd
      simp only [List.map_cons, List.mem_cons, not_or] at h
      rw [List.foldl_cons, ih _ h.2, dlookup_setItem_ne _ _ _ _ h.1]

theorem dlookup_foldl_mem (params : SweepParams) (i : Nat) (acc : Dict)
    (hnodup : (params.map Prod.fst).Nodup)
    (name : String) (seq : List Value) (hmem : (name, seq) ∈ params) :
    dlookup (params.foldl (fun d kv => setItem d kv.1 (pickValue kv.2 i)) acc) name =
      some (pickValue seq i) := by
  induction params generalizing acc with
  | nil => cases hmem
  | cons hd tl ih =>
      obtain ⟨k, s⟩ := hd
      simp only [List.map_cons, List.nodup_cons] at hnodup
      rcases List.mem_cons.mp hmem with heq | htl
      · injection heq with hk hs
        rw [List.foldl_cons]
        subst hk; subst hs
        rw [dlookup_foldl_not_mem tl i _ name hnodup.1, dlookup_setItem_self]
      · exact List.foldl_cons .. ▸ ih _ hnodup.2 htl

theorem some_pickValue_eq (seq : List Value) (i : Nat) (h : seq ≠ []) :
    some (pickValue seq i) =
      if i < seq.length then seq.get? i else seq.getLast? := by
  unfold pickValue
  by_cases hi : i < seq.length
  · rw [List.get?_eq_get hi]
    simp [hi]
  · rw [List.get?_eq_none.mpr (Nat.le_of_not_lt hi),
      List.getLast?_eq_getLast seq h]
    simp [hi]

theorem foldl_max_init_le (params : SweepParams) (m : Nat) :
    m ≤ params.foldl (fun m kv => max m kv.2.length) m := by
  induction params generalizing m with
  | nil => exact Nat.le_refl m
  | cons hd tl ih =>
      exact Nat.le_trans (Nat.le_max_left m hd.2.length) (ih _)

theorem length_le_maxSeqLen (params : SweepParams) (kv : String × List Value)
    (hmem : kv ∈ params) : kv.2.length ≤ maxSeqLen params := by
  unfold maxSeqLen
  generalize 0 = m
  induction params generalizing m with
  | nil => cases hmem
  | cons hd tl ih =>
      rcases List.mem_cons.mp hmem with heq | htl
      · subst heq
        exact Nat.le_trans (Nat.le_max_right m kv.2.length) (foldl_max_init_le tl _)
      · exact ih htl _

theorem buildParamSet_of_mem_nil (params : SweepParams)
    (h : ∃ kv ∈ params, kv.2 = []) (i : Nat) (acc : Dict) :
    buildParamSet params i acc = .error .sweepUnderflow := by
  induction params generalizing acc with
  | nil => obtain ⟨kv, hkv, _⟩ := h; cases hkv
  | cons hd tl ih =>
      obtain ⟨k, s⟩ := hd
      by_cases hs : s = []
      · subst hs
        rfl
      · rw [buildParamSet, sweepValue_of_ne_nil s i hs]
        obtain ⟨kv, hkv, hnil⟩ := h
        rcases List.mem_cons.mp hkv with heq | htl
        · refine absurd ?_ hs
          rw [heq] at hnil
          exact hnil
        · exact ih ⟨kv, htl, hnil⟩ _

theorem maxSeqLen_eq_zero (params : SweepParams)
    (h : ∀ kv ∈ params, kv.2 = []) : maxSeqLen params = 0 := by
  unfold maxSeqLen
  induction params with
  | nil => rfl
  | cons hd tl ih =>
      rw [List.foldl_cons, h hd (List.mem_cons_self _ _)]
      exact ih (fun kv hkv => h kv (List.mem_cons_of_mem _ hkv))

instance {ε α : Type} [DecidableEq ε] [DecidableEq α] :
    DecidableEq (Except ε α) := fun x y =>
  match x, y with
  | .ok a, .ok b =>
      if h : a = b then .isTrue (by rw [h])
      else .isFalse (by intro hc; cases hc; exact h rfl)
  | .ok _, .error _ => .isFalse (by intro h; cases h)
  | .error _, .ok _ => .isFalse (by intro h; cases h)
  | .error e, .error f =>
      if h : e = f then .isTrue (by rw [h])
      else .isFalse (by intro hc; cases hc; exact h rfl)

/-- C1: `generate_parameter_sweep` returns an ordered sequence of parameter
sets of length `L = max(len(v))` (empty when `params` is empty); at sweep
index `i < L` every parameter `(name, seq)` is resolved to `seq[i]` when
`i < len(seq)` and to the last element `seq[len(seq)-1]` otherwise. -/
theorem C1_parameter_sweep (params : SweepParams)
    (hnodup : (params.map Prod.fst).Nodup)
    (hne : ∀ kv ∈ params, kv.2 ≠ []) :
    ∃ out, generate_parameter_sweep params = .ok out ∧
      out.length = maxSeqLen params ∧
      ∀ i, i < maxSeqLen params → ∀ name seq, (name, seq) ∈ params →
        dlookup (out.getD i []) name =
          (if i < seq.length then seq.get? i else seq.getLast?) := by
  refine ⟨_, generate_parameter_sweep_of_ne_nil params hne, by simp, ?_⟩
  intro i hi name seq hmem
  have hgd : ((List.range (maxSeqLen params)).map
      (fun i => params.foldl (fun d kv => setItem d kv.1 (pickValue kv.2 i)) [])).getD i [] =
      params.foldl (fun d kv => setItem d kv.1 (pickValue kv.2 i)) [] := by
    rw [List.getD_eq_get?, List.get?_map, List.get?_range hi]
    rfl
  rw [hgd, dlookup_foldl_mem params i [] hnodup name seq hmem,
    some_pickValue_eq seq i (hne (name, seq) hmem)]

/-- C1 witness: the two concrete examples from the claim —
`{a:[1,2,3], b:[10,20]}` expands to `[{a:1,b:10},{a:2,b:20},{a:3,b:20}]`
and `{}` expands to `[]`. -/
theorem C1_parameter_sweep_witness :
    (∃ out, generate_parameter_sweep
        [("a", [Value.int 1, Value.int 2, Value.int 3]),
         ("b", [Value.int 10, Value.int 20])] = .ok out ∧
      out.length = maxSeqLen
        [("a", [Value.int 1, Value.int 2, Value.int 3]),
         ("b", [Value.int 10, Value.int 20])] ∧
      ∀ i, i < maxSeqLen
        [("a", [Value.int 1, Value.int 2, Value.int 3]),
         ("b", [Value.int 10, Value.int 20])] →
        ∀ name seq, (name, seq) ∈
          [("a", [Value.int 1, Value.int 2, Value.int 3]),
           ("b", [Value.int 10, Value.int 20])] →
        dlookup (out.getD i []) name =
          (if i < seq.length then seq.get? i else seq.getLast?)) ∧
    generate_parameter_sweep
        [("a", [Value.int 1, Value.int 2, Value.int 3]),
         ("b", [Value.int 10, Value.int 20])] =
      .ok [[("a", Value.int 1), ("b", Value.int 10)],
           [("a", Value.int 2), ("b", Value.int 20)],
           [("a", Value.int 3), ("b", Value.int 20)]] ∧
    generate_parameter_sweep ([] : SweepParams) = .ok [] :=
  ⟨C1_parameter_sweep _ (by decide) (by decide), by decide, by decide⟩

/-- C9: the sweep is total only when no value sequence is empty while
another is non-empty — a mixed empty/non-empty `params` makes the padding
index `len - 1` underflow and the call fails; when every sequence is
non-empty (or all are empty) every index is in range and the call
succeeds. -/
theorem C9_sweep_totality (params : SweepParams) :
    ((∃ kv ∈ params, kv.2 = []) → (∃ kv ∈ params, kv.2 ≠ []) →
      generate_parameter_sweep params = .error .sweepUnderflow) ∧
    ((∀ kv ∈ params, kv.2 ≠ []) →
      ∃ out, generate_parameter_sweep params = .ok out) ∧
    ((∀ kv ∈ params, kv.2 = []) → generate_parameter_sweep params = .ok []) := by
  refine ⟨?_, ?_, ?_⟩
  · intro hempty hfull
    obtain ⟨kv, hkv, hne⟩ := hfull
    have hpos : 0 < maxSeqLen params :=
      Nat.lt_of_lt_of_le (List.length_pos.mpr hne) (length_le_maxSeqLen params kv hkv)
    obtain ⟨n, hn⟩ := Nat.exists_eq_succ_of_ne_zero (Nat.pos_iff_ne_zero.mp hpos)
    unfold generate_parameter_sweep
    rw [hn, List.range_succ_eq_map, List.mapM_cons,
      buildParamSet_of_mem_nil params hempty 0 []]
    rfl
  · intro hne
    exact ⟨_, generate_parameter_sweep_of_ne_nil params hne⟩
  · intro hall
    unfold generate_parameter_sweep
    rw [maxSeqLen_eq_zero params hall]
    rfl

/-- C9 witness: `{a:[], b:[1]}` fails with the underflow; `{a:[1]}` and
`{a:[], b:[]}` succeed. -/
theorem C9_sweep_totality_witness :
    generate_parameter_sweep [("a", []), ("b", [Value.int 1])] =
      .error .sweepUnderflow ∧
    (∃ out, generate_parameter_sweep [("a", [Value.int 1])] = .ok out) ∧
    generate_parameter_sweep [("a", []), ("b", [])] = .ok [] :=
  ⟨(C9_sweep_totality _).1 (by decide) (by decide),
   (C9_sweep_totality _).2.1 (by decide),
   (C9_sweep_totality _).2.2 (by decide)⟩

/-! ## Signal reduction (`reduce_signals`, lib.rs 317-381) -/

/-- One run's trajectory: outer index = timestep, inner index = substep. -/
abbrev Trajectory := List (List Dict)

/-- What a Python object returned by a policy call looks like to the
engine: a dictionary, or something that fails the `&PyDict` extraction. -/
inductive PolicyRet where
  | dict : Dict → PolicyRet
  | nonDict : PolicyRet

/-- A configured policy target: a genuine callable (which may raise), or a
non-callable object. -/
inductive PyPolicy where
  | notCallableObj : PyPolicy
  | fn : (Dict → Nat → Trajectory → Dict → Except PyExc PolicyRet) → PyPolicy

/-- `function.call(...)` on a policy target: calling a non-callable Python
object raises `TypeError`. -/
def callPolicy (f : PyPolicy) (params : Dict) (substep : Nat)
    (result : Trajectory) (substate : Dict) : Except PyExc PolicyRet :=
  match f with
  | .notCallableObj => .error (.typeError "object is not callable")
  | .fn g => g params substep result substate

/-- lib.rs 326-352: invoke every policy of the block in iteration order,
extracting each result as a dictionary; a call error is wrapped in a
`RuntimeError`, a non-dictionary result becomes a `RuntimeError` with the
extraction message. -/
def gatherPolicyResults (params : Dict) (substep : Nat) (result : Trajectory)
    (substate : Dict) : List (String × PyPolicy) → Except EngineFailure (List Dict)
  | [] => .ok []
  | (_, f) :: rest =>
      match callPolicy f params substep result substate with
      | .error e => .error (.exc (.wrapped e))
      | .ok .nonDict =>
          .error (.exc (.runtimeError "Failed to extract policy function result as dictionary"))
      | .ok (.dict d) =>
          match gatherPolicyResults params substep result substate rest with
          | .error e => .error e
          | .ok ds => .ok (d :: ds)

/-- lib.rs 361-376: merge one policy result into the accumulator — a key
absent from the accumulator is inserted as-is, a key already present is
combined with Python `__add__`; an unsupported combination hits the
`expect("reduce_signals")` panic. -/
def mergeInto : Dict → Dict → Except EngineFailure Dict
  | acc, [] => .ok acc
  | acc, (k, v) :: rest =>
      match dlookup acc k with
      | some v0 =>
          match v0.add v with
          | some s => mergeInto (setItem acc k s) rest
          | none => .error .mergePanic
      | none => mergeInto (setItem acc k v) rest

/-- lib.rs 360-378: fold all policy results into a fresh dictionary, in
policy iteration order. -/
def mergeAll : Dict → List Dict → Except EngineFailure Dict
  | acc, [] => .ok acc
  | acc, d :: ds =>
      match mergeInto acc d with
      | .error e => .error e
      | .ok acc' => mergeAll acc' ds

/-- lib.rs 317-381: `reduce_signals` — gather all policy outputs, then
return the empty mapping for zero policies, the single output unchanged
for one, and the key-wise additive fold for several. -/
def reduce_signals (params : Dict) (substep : Nat) (result : Trajectory)
    (substate : Dict) (policies : List (String × PyPolicy)) :
    Except EngineFailure Dict :=
  match gatherPolicyResults params substep result substate policies with
  | .error e => .error e
  | .ok rs =>
      match rs with
      | [] => .ok []
      | [d] => .ok d
      | _ => mergeAll [] rs

/-! ## The pure embedding of `single_run` (lib.rs 136-288) -/

/-- What a Python object returned by a state-update call looks like to the
engine: a `(key, value)` pair, or something that fails the `&PyTuple`
extraction. -/
inductive UpdateRet where
  | pair : String → Value → UpdateRet
  | nonTuple : UpdateRet

/-- A configured state-update target: a genuine callable (which may
raise), or a non-callable object (lib.rs 226 checks `is_callable`). -/
inductive PyUpdate where
  | notCallableObj : PyUpdate
  | fn : (Dict → Nat → Trajectory → Dict → Dict → Except PyExc UpdateRet) → PyUpdate

/-- One partial state update block: its `policies` and `variables`
mappings, both in iteration (insertion) order. -/
structure Block where
  policies : List (String × PyPolicy)
  vars : List (String × PyUpdate)

/-- The `RuntimeError` re-wrapping `single_run` performs on an error
returned by `reduce_signals` (lib.rs 222-224).  A Rust panic is not a
`PyErr` and propagates unchanged. -/
def wrapRun : EngineFailure → EngineFailure
  | .exc e => .exc (.wrapped e)
  | e => e

/-- lib.rs 151-155: stamp the five metadata keys into the (caller's)
initial state, in source order. -/
def stampInitialState (d : Dict) (simulation subset run : Nat) : Dict :=
  setItem (setItem (setItem (setItem (setItem d
    "simulation" (.int simulation))
    "subset" (.int subset))
    "run" (.int (run + 1)))
    "substep" (.int 0))
    "timestep" (.int 0)

/-- lib.rs 181-184: re-stamp the seed of a timestep (the `timestep` value
passed here is already the 1-based one the code computes). -/
def stampMeta (d : Dict) (simulation subset run timestep : Nat) : Dict :=
  setItem (setItem (setItem (setItem d
    "simulation" (.int simulation))
    "subset" (.int subset))
    "run" (.int (run + 1)))
    "timestep" (.int timestep)

/-- lib.rs 197-276, body of the per-variable loop: validate the declared
variable against the (stamped) initial-state schema, deep-copy the working
substate (`pickle.dumps`/`loads` — the identity on contents), reduce the
block's signals, invoke the update function, validate its returned key
(schema membership first, then equality with the declared variable), and
apply the update onto the accumulating substate (`applyUpdate` below holds
lib.rs 256-275, the validation and application of the extracted result:
schema membership of the returned key first, then equality with the
declared variable, then `set_item` onto the accumulating substate). -/
def applyUpdate (init : Dict) (state : String) (substate : Dict) :
    UpdateRet → Except EngineFailure Dict
  | .nonTuple =>
      .error (.exc (.runtimeError "Failed to extract state update function result as tuple"))
  | .pair k v =>
      if containsKey init k = false then
        .error (.exc (.keyError "Invalid state key returned from state update function"))
      else if state = k then
        .ok (setItem substate k v)
      else
        .error (.exc (.keyError
          ("PSU state key " ++ state ++ " doesn't match function state key " ++ k)))

/-- lib.rs 197-255: the per-variable step up to the update call — schema
check of the declared variable, deep copy, signal reduction, invocation —
followed by `applyUpdate` on the extracted result. -/
def processVariable (init params : Dict) (substep : Nat) (result : Trajectory)
    (policies : List (String × PyPolicy)) (state : String)
    (function : PyUpdate) (substate : Dict) : Except EngineFailure Dict :=
  if containsKey init state = false then
    .error (.exc (.keyError "Invalid state key in partial state update block"))
  else
    match reduce_signals params substep result substate policies with
    | .error e => .error (wrapRun e)
    | .ok signals =>
        match function with
        | .notCallableObj =>
            .error (.exc (.typeError "State update function is not callable"))
        | .fn f =>
            match f params substep result substate signals with
            | .error e => .error (.exc (.wrapped e))
            | .ok ret => applyUpdate init state substate ret

/-- lib.rs 197-276: process the declared variables of one block, in
declared order, accumulating onto the substep's substate. -/
def runVariables (init params : Dict) (substep : Nat) (result : Trajectory)
    (policies : List (String × PyPolicy)) :
    List (String × PyUpdate) → Dict → Except EngineFailure Dict
  | [], substate => .ok substate
  | (state, function) :: rest, substate =>
      match processVariable init params substep result policies state function substate with
      | .error e => .error e
      | .ok substate' => runVariables init params substep result policies rest substate'

/-- lib.rs 186-283: run the ordered blocks of one timestep; each substep's
substate starts from a copy of the previous substep's result (or of the
timestep seed), gets its `substep` metadata set, and is appended. -/
def runBlocks (init params : Dict) (result : Trajectory) :
    List Block → Nat → Dict → List Dict → Except EngineFailure (List Dict)
  | [], _, _, substeps => .ok substeps
  | blk :: rest, s, base, substeps =>
      let substate0 := setItem base "substep" (.int (s + 1))
      match runVariables init params s result blk.policies blk.vars substate0 with
      | .error e => .error e
      | .ok substate =>
          runBlocks init params result rest (s + 1) substate (substeps ++ [substate])

/-- lib.rs 162-180: fetch the previous timestep's seed — `result[0][0]` at
timestep 0, otherwise the last substate of the last entry; on an empty
last entry the `len - 1` index underflows and the `expect` panics. -/
def fetchPrev (result : Trajectory) : Nat → Except EngineFailure Dict
  | 0 =>
      match result with
      | (d :: _) :: _ => .ok d
      | _ => .error .fetchPrevPanic
  | _ + 1 =>
      match result.getLast? with
      | none => .error .fetchPrevPanic
      | some substates =>
          match substates.getLast? with
          | none => .error .fetchPrevPanic
          | some d => .ok d

/-- lib.rs 160-285: the timestep loop, with `n` iterations left and `t`
the current 0-based timestep. -/
def runTimesteps (init params : Dict) (blocks : List Block)
    (simulation subset run : Nat) :
    Nat → Nat → Trajectory → Except EngineFailure Trajectory
  | 0, _, result => .ok result
  | n + 1, t, result =>
      match fetchPrev result t with
      | .error e => .error e
      | .ok prev =>
          let prev' := stampMeta prev simulation subset run (t + 1)
          match runBlocks init params result blocks 0 prev' [] with
          | .error e => .error e
          | .ok substeps =>
              runTimesteps init params blocks simulation subset run n (t + 1)
                (result ++ [substeps])

/-- lib.rs 136-288: `single_run`.  The first component is the returned
trajectory (or failure); the second component is the caller's
`initial_state` dictionary as it stands when the call returns — the
metadata stamping of lib.rs 151-155 mutates it in place, and nothing later
writes to it. -/
def single_run (simulation timesteps run subset : Nat) (initial_state : Dict)
    (blocks : List Block) (params : Dict) :
    Except EngineFailure Trajectory × Dict :=
  let init := stampInitialState initial_state simulation subset run
  (runTimesteps init params blocks simulation subset run timesteps 0 [[init]],
   init)

/-! ## C4: the signal merge rule -/

/-- Spec-side definition (for the refinement claim C4, in its amended
form): combine one key into the accumulator — a key absent from the
accumulator is inserted as-is, and a key already present is combined by
calling the accumulator value's `__add__` method, storing whatever it
returns (including `NotImplemented`) and aborting only when the call
raises. -/
def specCombineKey (acc : Dict) (k : String) (v : Value) :
    Except EngineFailure Dict :=
  match dlookup acc k with
  | none => .ok (setItem acc k v)
  | some v0 =>
      match v0.add v with
      | some s => .ok (setItem acc k s)
      | none => .error .mergePanic

/-- Spec-side definition (for the refinement claim C4, in its amended
form): the key-wise combination of one policy output into the
accumulator, key by key in iteration order. -/
def specMergeDict : Dict → Dict → Except EngineFailure Dict
  | acc, [] => .ok acc
  | acc, (k, v) :: rest =>
      match specCombineKey acc k v with
      | .error e => .error e
      | .ok acc' => specMergeDict acc' rest

/-- Spec-side definition (for the refinement claim C4, in its amended
form): the empty mapping for zero policies, the single policy's output
unchanged for one, and the key-wise `__add__` combination folded in
policy iteration order for several. -/
def specReduceSignals : List Dict → Except EngineFailure Dict
  | [] => .ok []
  | [d] => .ok d
  | ds => go [] ds
where
  go : Dict → List Dict → Except EngineFailure Dict
    | acc, [] => .ok acc
    | acc, d :: ds =>
        match specMergeDict acc d with
        | .error e => .error e
        | .ok acc' => go acc' ds

theorem gatherPolicyResults_of_forall₂ (params : Dict) (substep : Nat)
    (result : Trajectory) (substate : Dict)
    (policies : List (String × PyPolicy)) (ds : List Dict)
    (h : List.Forall₂ (fun (p : String × PyPolicy) d =>
      callPolicy p.2 params substep result substate = .ok (.dict d)) policies ds) :
    gatherPolicyResults params substep result substate policies = .ok ds := by
  induction h with
  | nil => rfl
  | cons hpd _ ih =>
      rename_i p d ps ds' _
      obtain ⟨_, f⟩ := p
      rw [gatherPolicyResults, hpd, ih]

theorem mergeInto_eq_spec (d : Dict) (acc : Dict) :
    mergeInto acc d = specMergeDict acc d := by
  induction d generalizing acc with
  | nil => rfl
  | cons kv rest ih =>
      obtain ⟨k, v⟩ := kv
      cases hdl : dlookup acc k with
      | none => simp [mergeInto, specMergeDict, specCombineKey, hdl, ih]
      | some v0 =>
          cases hadd : v0.add v with
          | none => simp [mergeInto, specMergeDict, specCombineKey, hdl, hadd]
          | some s => simp [mergeInto, specMergeDict, specCombineKey, hdl, hadd, ih]

theorem mergeAll_eq_spec (ds : List Dict) (acc : Dict) :
    mergeAll acc ds = specReduceSignals.go acc ds := by
  induction ds generalizing acc with
  | nil => rfl
  | cons d rest ih =>
      rw [mergeAll, specReduceSignals.go, mergeInto_eq_spec]
      cases specMergeDict acc d with
      | error e => rfl
      | ok acc' => exact ih _

/-- The additive combination the original claim C4 (and spec §4.2)
describes: a genuine `+` on kinds that support it — arithmetic addition
for integers, concatenation for strings — and failure
(`SignalMergeError`) on any other combination. -/
def plusCombine : Value → Value → Option Value
  | .int a, .int b => some (.int (a + b))
  | .str a, .str b => some (.str (a ++ b))
  | _, _ => none

/-- The merge rule of the original claim C4, built from `plusCombine`:
insert absent keys as-is, combine present keys with `+`, fail on
unsupported combinations. -/
def plusCombineKey (acc : Dict) (k : String) (v : Value) :
    Except EngineFailure Dict :=
  match dlookup acc k with
  | none => .ok (setItem acc k v)
  | some v0 =>
      match plusCombine v0 v with
      | some sv => .ok (setItem acc k sv)
      | none => .error .mergePanic

/-- One policy output merged under the original claim's `+` rule. -/
def plusMergeDict : Dict → Dict → Except EngineFailure Dict
  | acc, [] => .ok acc
  | acc, (k, v) :: rest =>
      match plusCombineKey acc k v with
      | .error e => .error e
      | .ok acc' => plusMergeDict acc' rest

/-- The original claim's merge rule over all policy outputs. -/
def plusReduceSignals : List Dict → Except EngineFailure Dict
  | [] => .ok []
  | [d] => .ok d
  | ds => go [] ds
where
  go : Dict → List Dict → Except EngineFailure Dict
    | acc, [] => .ok acc
    | acc, d :: ds =>
        match plusMergeDict acc d with
        | .error e => .error e
        | .ok acc' => go acc' ds

/-- C4 counterexample: the program does not implement the claimed `+`
merge — for policies returning `{s: 1}` and then `{s: "a"}`,
`int.__add__(str)` returns the `NotImplemented` object, which lib.rs
363-370 stores under the key and continues with, so `reduce_signals`
*succeeds* with `{s: NotImplemented}`, while the claimed key-wise `+`
combination has no value for int + str and fails. -/
theorem C4_counterexample :
    reduce_signals [] 0 [] []
        [("p1", PyPolicy.fn (fun _ _ _ _ => .ok (.dict [("s", Value.int 1)]))),
         ("p2", PyPolicy.fn (fun _ _ _ _ => .ok (.dict [("s", Value.str "a")])))] =
      .ok [("s", Value.notImplemented)] ∧
    plusReduceSignals [[("s", Value.int 1)], [("s", Value.str "a")]] =
      .error .mergePanic ∧
    (.ok [("s", Value.notImplemented)] : Except EngineFailure Dict) ≠
      .error .mergePanic := by
  refine ⟨by decide, by decide, by decide⟩

/-- C4 (amended): `reduce_signals` returns the empty mapping for zero
policies, the single policy's output unchanged for one, and — for
several — the key-wise fold in the iteration order of the policies
mapping, inserting keys absent from the accumulator as-is and combining
already-present keys by calling the accumulator value's `__add__` method:
arithmetic addition for int + int and concatenation for str + str, but
`int.__add__(str)` returns `NotImplemented`, which is stored as the key's
value and the merge continues; the merge aborts (the
`expect("reduce_signals")` panic) only when the `__add__` call raises,
e.g. for `str.__add__(int)`. -/
theorem C4_reduce_signals (params : Dict) (substep : Nat)
    (result : Trajectory) (substate : Dict)
    (policies : List (String × PyPolicy)) (ds : List Dict)
    (h : List.Forall₂ (fun (p : String × PyPolicy) d =>
      callPolicy p.2 params substep result substate = .ok (.dict d)) policies ds) :
    reduce_signals params substep result substate policies =
      specReduceSignals ds := by
  unfold reduce_signals
  rw [gatherPolicyResults_of_forall₂ params substep result substate policies ds h]
  match ds with
  | [] => rfl
  | [d] => rfl
  | d₁ :: d₂ :: rest =>
      show mergeAll [] _ = specReduceSignals _
      rw [mergeAll_eq_spec]
      rfl

/-- C4 witness for the amended claim: policies returning `{s:1}` and
`{s:2}` reduce to `{s:3}`; a single policy returning `{s:5}` passes
through unchanged; zero policies reduce to `{}`; and the divergent mixed
input `{s:1}` then `{s:"a"}` reduces to `{s: NotImplemented}`. -/
theorem C4_reduce_signals_witness :
    reduce_signals [] 0 [] []
        [("p1", PyPolicy.fn (fun _ _ _ _ => .ok (.dict [("s", Value.int 1)]))),
         ("p2", PyPolicy.fn (fun _ _ _ _ => .ok (.dict [("s", Value.int 2)])))] =
      .ok [("s", Value.int 3)] ∧
    reduce_signals [] 0 [] []
        [("p1", PyPolicy.fn (fun _ _ _ _ => .ok (.dict [("s", Value.int 5)])))] =
      .ok [("s", Value.int 5)] ∧
    reduce_signals [] 0 [] [] [] = .ok [] ∧
    reduce_signals [] 0 [] []
        [("p1", PyPolicy.fn (fun _ _ _ _ => .ok (.dict [("s", Value.int 1)]))),
         ("p2", PyPolicy.fn (fun _ _ _ _ => .ok (.dict [("s", Value.str "a")])))] =
      .ok [("s", Value.notImplemented)] :=
  ⟨(C4_reduce_signals [] 0 [] []
      [("p1", PyPolicy.fn (fun _ _ _ _ => .ok (.dict [("s", Value.int 1)]))),
       ("p2", PyPolicy.fn (fun _ _ _ _ => .ok (.dict [("s", Value.int 2)])))]
      [[("s", Value.int 1)], [("s", Value.int 2)]]
      (.cons rfl (.cons rfl .nil))).trans (by decide),
   (C4_reduce_signals [] 0 [] []
      [("p1", PyPolicy.fn (fun _ _ _ _ => .ok (.dict [("s", Value.int 5)])))]
      [[("s", Value.int 5)]]
      (.cons rfl .nil)).trans (by decide),
   (C4_reduce_signals [] 0 [] [] [] [] .nil).trans (by decide),
   (C4_reduce_signals [] 0 [] []
      [("p1", PyPolicy.fn (fun _ _ _ _ => .ok (.dict [("s", Value.int 1)]))),
       ("p2", PyPolicy.fn (fun _ _ _ _ => .ok (.dict [("s", Value.str "a")])))]
      [[("s", Value.int 1)], [("s", Value.str "a")]]
      (.cons rfl (.cons rfl .nil))).trans (by decide)⟩

/-! ## C3: mutation of the caller's Model -/

/-- The five reserved metadata keys `single_run` stamps (lib.rs 151-155). -/
def reservedKeys : List String :=
  ["simulation", "subset", "run", "substep", "timestep"]

/-- C3 counterexample: the claim "the caller's `initial_state` mapping is
unchanged when `single_run` returns" is false — after a call with
`initial_state = {x: 0}` the caller's dictionary holds the five stamped
metadata keys as well. -/
theorem C3_counterexample :
    (single_run 0 0 0 0 [("x", Value.int 0)] [] []).2 ≠
      [("x", Value.int 0)] := by decide

/-- C3 (amended): `single_run` never mutates the blocks or `params`, but it
does mutate the caller's `initial_state` in place: on return the mapping
is exactly the original with the five metadata keys
`simulation, subset, run, substep, timestep` stamped in (lib.rs 151-155);
every key outside those five keeps its original value. -/
theorem C3_initial_state_mutation (simulation timesteps run subset : Nat)
    (initial_state : Dict) (blocks : List Block) (params : Dict) :
    (single_run simulation timesteps run subset initial_state blocks params).2 =
      stampInitialState initial_state simulation subset run ∧
    ∀ k, k ∉ reservedKeys →
      dlookup ((single_run simulation timesteps run subset initial_state blocks params).2) k =
        dlookup initial_state k := by
  refine ⟨rfl, ?_⟩
  intro k hk
  simp only [reservedKeys, List.mem_cons, List.not_mem_nil, or_false, not_or] at hk
  obtain ⟨h1, h2, h3, h4, h5⟩ := hk
  show dlookup (stampInitialState initial_state simulation subset run) k = _
  unfold stampInitialState
  rw [dlookup_setItem_ne _ _ _ _ h5, dlookup_setItem_ne _ _ _ _ h4,
    dlookup_setItem_ne _ _ _ _ h3, dlookup_setItem_ne _ _ _ _ h2,
    dlookup_setItem_ne _ _ _ _ h1]

/-- C3 witness for the amended claim, at `initial_state = {x: 0}`. -/
theorem C3_initial_state_mutation_witness :
    (single_run 0 3 0 0 [("x", Value.int 0)] [] []).2 =
      stampInitialState [("x", Value.int 0)] 0 0 0 ∧
    dlookup ((single_run 0 3 0 0 [("x", Value.int 0)] [] []).2) "x" =
      dlookup [("x", Value.int 0)] "x" :=
  ⟨(C3_initial_state_mutation 0 3 0 0 [("x", Value.int 0)] [] []).1,
   (C3_initial_state_mutation 0 3 0 0 [("x", Value.int 0)] [] []).2 "x" (by decide)⟩

/-! ## C8: reserved metadata keys pass the schema checks -/

theorem containsKey_stampInitialState_reserved (d : Dict)
    (simulation subset run : Nat) :
    ∀ k ∈ reservedKeys,
      containsKey (stampInitialState d simulation subset run) k = true := by
  intro k hk
  unfold stampInitialState
  simp only [reservedKeys, List.mem_cons, List.not_mem_nil, or_false] at hk
  rcases hk with rfl | rfl | rfl | rfl | rfl
  · rw [containsKey_setItem_ne _ _ _ _ (by decide),
      containsKey_setItem_ne _ _ _ _ (by decide),
      containsKey_setItem_ne _ _ _ _ (by decide),
      containsKey_setItem_ne _ _ _ _ (by decide),
      containsKey_setItem_self]
  · rw [containsKey_setItem_ne _ _ _ _ (by decide),
      containsKey_setItem_ne _ _ _ _ (by decide),
      containsKey_setItem_ne _ _ _ _ (by decide),
      containsKey_setItem_self]
  · rw [containsKey_setItem_ne _ _ _ _ (by decide),
      containsKey_setItem_ne _ _ _ _ (by decide),
      containsKey_setItem_self]
  · rw [containsKey_setItem_ne _ _ _ _ (by decide),
      containsKey_setItem_self]
  · rw [containsKey_setItem_self]

/-- Discriminator for run results: `true` exactly on success. -/
def runOk : Except EngineFailure Trajectory → Bool
  | .ok _ => true
  | .error _ => false

/-- C8: because the metadata keys are stamped into `initial_state` before
any validation, every reserved metadata key passes the `InvalidStateKey`
schema checks: all five keys are contained in the stamped schema, and a
run whose only block declares the variable `"timestep"` (with an update
returning key `"timestep"`) succeeds even though the caller never declared
`"timestep"` in the initial state. -/
theorem C8_reserved_keys_pass_schema (simulation run subset v : Nat)
    (initial_state params : Dict)
    (_h : containsKey initial_state "timestep" = false) :
    (∀ k ∈ reservedKeys,
      containsKey (stampInitialState initial_state simulation subset run) k = true) ∧
    runOk (single_run simulation 1 run subset initial_state
      [⟨[], [("timestep", PyUpdate.fn (fun _ _ _ _ _ => .ok (.pair "timestep" (.int v))))]⟩]
      params).1 = true := by
  refine ⟨containsKey_stampInitialState_reserved initial_state simulation subset run, ?_⟩
  have hts : containsKey (stampInitialState initial_state simulation subset run) "timestep" = true :=
    containsKey_stampInitialState_reserved initial_state simulation subset run
      "timestep" (by decide)
  simp [single_run, runTimesteps, fetchPrev, runBlocks, runVariables,
    processVariable, applyUpdate, reduce_signals, gatherPolicyResults, hts, runOk]

/-- C8 witness: concrete instance with `initial_state = {x: 0}`, which
does not declare `"timestep"`. -/
theorem C8_reserved_keys_pass_schema_witness :
    (∀ k ∈ reservedKeys,
      containsKey (stampInitialState [("x", Value.int 0)] 0 0 0) k = true) ∧
    runOk (single_run 0 1 0 0 [("x", Value.int 0)]
      [⟨[], [("timestep", PyUpdate.fn (fun _ _ _ _ _ => .ok (.pair "timestep" (.int 9))))]⟩]
      []).1 = true :=
  C8_reserved_keys_pass_schema 0 0 0 9 [("x", Value.int 0)] [] (by decide)

/-! ## C6: returned-key validation -/

/-- C6 counterexample: an update registered under `x` returning key `"z"`
(absent from the schema) fails with the *invalid-state-key* `KeyError`,
not with the key-mismatch error — the schema-membership check runs before
the equality check (lib.rs 258-265), contradicting both the claimed order
and "returning `(y, v)` with `y ≠ x` fails with `StateKeyMismatch`". -/
theorem C6_counterexample :
    (single_run 0 1 0 0 [("x", Value.int 0)]
      [⟨[], [("x", PyUpdate.fn (fun _ _ _ _ _ => .ok (.pair "z" (.int 7))))]⟩] []).1 =
      .error (.exc (.keyError "Invalid state key returned from state update function")) ∧
    (.error (.exc (.keyError "Invalid state key returned from state update function")) :
        Except EngineFailure Trajectory) ≠
      .error (.exc (.keyError "PSU state key x doesn't match function state key z")) := by
  constructor
  · decide
  · decide

/-- C6 (amended): the engine validates the returned key's schema
membership first (`InvalidStateKey`) and only then its equality with the
declared variable (`StateKeyMismatch`): an update registered under `x`
returning `(y, v)` with `y ≠ x` fails with the key-mismatch `KeyError`
when `y` is in the stamped schema, and with the invalid-state-key
`KeyError` when it is not; in both cases the run aborts with no trajectory,
so no state mutation from that call is applied. -/
theorem C6_key_validation_order (simulation run subset n : Nat) (v : Int)
    (x y : String) (initial_state params : Dict)
    (hx : containsKey (stampInitialState initial_state simulation subset run) x = true)
    (hxy : x ≠ y) :
    (containsKey (stampInitialState initial_state simulation subset run) y = true →
      (single_run simulation (n + 1) run subset initial_state
        [⟨[], [(x, PyUpdate.fn (fun _ _ _ _ _ => .ok (.pair y (.int v))))]⟩] params).1 =
        .error (.exc (.keyError
          ("PSU state key " ++ x ++ " doesn't match function state key " ++ y)))) ∧
    (containsKey (stampInitialState initial_state simulation subset run) y = false →
      (single_run simulation (n + 1) run subset initial_state
        [⟨[], [(x, PyUpdate.fn (fun _ _ _ _ _ => .ok (.pair y (.int v))))]⟩] params).1 =
        .error (.exc (.keyError "Invalid state key returned from state update function"))) := by
  constructor
  · intro hy
    simp [single_run, runTimesteps, fetchPrev, runBlocks, runVariables,
      processVariable, applyUpdate, reduce_signals, gatherPolicyResults, hx, hy, hxy]
  · intro hy
    simp [single_run, runTimesteps, fetchPrev, runBlocks, runVariables,
      processVariable, applyUpdate, reduce_signals, gatherPolicyResults, hx, hy]

/-- C6 witness for the amended claim, at `initial_state = {x:0, y:0}`
(mismatch on a schema key) and at `initial_state = {x:0}` (mismatch on a
non-schema key). -/
theorem C6_key_validation_order_witness :
    ((single_run 0 1 0 0 [("x", Value.int 0), ("y", Value.int 0)]
        [⟨[], [("x", PyUpdate.fn (fun _ _ _ _ _ => .ok (.pair "y" (.int 7))))]⟩] []).1 =
      .error (.exc (.keyError "PSU state key x doesn't match function state key y"))) ∧
    ((single_run 0 1 0 0 [("x", Value.int 0)]
        [⟨[], [("x", PyUpdate.fn (fun _ _ _ _ _ => .ok (.pair "q" (.int 7))))]⟩] []).1 =
      .error (.exc (.keyError "Invalid state key returned from state update function"))) :=
  ⟨(C6_key_validation_order 0 0 0 0 7 "x" "y" [("x", Value.int 0), ("y", Value.int 0)] []
      (by decide) (by decide)).1 (by decide),
   (C6_key_validation_order 0 0 0 0 7 "x" "q" [("x", Value.int 0)] []
      (by decide) (by decide)).2 (by decide)⟩

/-! ## C7: the not-callable error -/

/-- C7 counterexample: a non-callable *policy* target does not fail with a
dedicated not-callable error — the run fails with exactly the same
propagated `RuntimeError` chain a user function raising the same
`TypeError` produces, and not with the dedicated not-callable `TypeError`
used for update targets. -/
theorem C7_counterexample :
    (single_run 0 1 0 0 [("x", Value.int 0)]
      [⟨[("p", PyPolicy.notCallableObj)],
        [("x", PyUpdate.fn (fun _ _ _ _ _ => .ok (.pair "x" (.int 1))))]⟩] []).1 =
    (single_run 0 1 0 0 [("x", Value.int 0)]
      [⟨[("p", PyPolicy.fn (fun _ _ _ _ => .error (.typeError "object is not callable")))],
        [("x", PyUpdate.fn (fun _ _ _ _ _ => .ok (.pair "x" (.int 1))))]⟩] []).1 ∧
    (single_run 0 1 0 0 [("x", Value.int 0)]
      [⟨[("p", PyPolicy.notCallableObj)],
        [("x", PyUpdate.fn (fun _ _ _ _ _ => .ok (.pair "x" (.int 1))))]⟩] []).1 ≠
      .error (.exc (.typeError "State update function is not callable")) := by
  constructor
  · decide
  · decide

/-- C7 (amended): only state-update targets get the dedicated not-callable
error — a non-invocable update target fails with the dedicated
`TypeError` "State update function is not callable", while a non-invocable
policy target fails through the generic policy-call error path: the Python
`TypeError` raised by calling it is wrapped twice in `RuntimeError`,
exactly as an exception raised inside a policy function would be. -/
theorem C7_not_callable (simulation run subset n : Nat) (x : String)
    (initial_state params : Dict)
    (hx : containsKey (stampInitialState initial_state simulation subset run) x = true) :
    ((single_run simulation (n + 1) run subset initial_state
        [⟨[], [(x, PyUpdate.notCallableObj)]⟩] params).1 =
      .error (.exc (.typeError "State update function is not callable"))) ∧
    (∀ upd, (single_run simulation (n + 1) run subset initial_state
        [⟨[("p", PyPolicy.notCallableObj)], [(x, upd)]⟩] params).1 =
      .error (.exc (.wrapped (.wrapped (.typeError "object is not callable"))))) := by
  constructor
  · simp [single_run, runTimesteps, fetchPrev, runBlocks, runVariables,
      processVariable, applyUpdate, reduce_signals, gatherPolicyResults, hx]
  · intro upd
    simp [single_run, runTimesteps, fetchPrev, runBlocks, runVariables,
      processVariable, applyUpdate, reduce_signals, gatherPolicyResults, callPolicy, wrapRun, hx]

/-- C7 witness for the amended claim, at `initial_state = {x: 0}`. -/
theorem C7_not_callable_witness :
    ((single_run 0 1 0 0 [("x", Value.int 0)]
        [⟨[], [("x", PyUpdate.notCallableObj)]⟩] []).1 =
      .error (.exc (.typeError "State update function is not callable"))) ∧
    ((single_run 0 1 0 0 [("x", Value.int 0)]
        [⟨[("p", PyPolicy.notCallableObj)], [("x", PyUpdate.notCallableObj)]⟩] []).1 =
      .error (.exc (.wrapped (.wrapped (.typeError "object is not callable"))))) :=
  ⟨(C7_not_callable 0 0 0 0 "x" [("x", Value.int 0)] [] (by decide)).1,
   (C7_not_callable 0 0 0 0 "x" [("x", Value.int 0)] [] (by decide)).2 PyUpdate.notCallableObj⟩

/-! ## Structural lemmas about `single_run`'s loops -/

theorem applyUpdate_ok_shape (init : Dict) (state : String) (substate : Dict)
    (ret : UpdateRet) (out : Dict)
    (h : applyUpdate init state substate ret = .ok out) :
    ∃ v, out = setItem substate state v := by
  cases ret with
  | nonTuple => simp [applyUpdate] at h
  | pair k v =>
      simp only [applyUpdate] at h
      split at h
      · cases h
      · split at h
        next hk =>
          injection h with h
          subst hk
          exact ⟨v, h.symm⟩
        next => cases h

theorem processVariable_ok_shape (init params : Dict) (substep : Nat)
    (result : Trajectory) (policies : List (String × PyPolicy))
    (state : String) (function : PyUpdate) (substate out : Dict)
    (h : processVariable init params substep result policies state function substate = .ok out) :
    ∃ v, out = setItem substate state v := by
  unfold processVariable at h
  split at h
  · cases h
  · split at h
    · cases h
    · split at h
      · cases h
      · split at h
        · cases h
        · exact applyUpdate_ok_shape _ _ _ _ _ h

theorem runVariables_preserve (init params : Dict) (substep : Nat)
    (result : Trajectory) (policies : List (String × PyPolicy)) :
    ∀ (varsL : List (String × PyUpdate)) (substate out : Dict),
      runVariables init params substep result policies varsL substate = .ok out →
      ∀ k, (∀ kv ∈ varsL, kv.1 ≠ k) → dlookup out k = dlookup substate k := by
  intro varsL
  induction varsL with
  | nil =>
      intro substate out h k _
      injection h with h
      rw [h]
  | cons kv rest ih =>
      intro substate out h k hk
      obtain ⟨state, function⟩ := kv
      rw [runVariables] at h
      cases hp : processVariable init params substep result policies state function substate with
      | error e => rw [hp] at h; cases h
      | ok substate' =>
          rw [hp] at h
          obtain ⟨v, rfl⟩ := processVariable_ok_shape _ _ _ _ _ _ _ _ _ hp
          rw [ih _ _ h k (fun kv hkv => hk kv (List.mem_cons_of_mem _ hkv)),
            dlookup_setItem_ne _ _ _ _ (hk (state, function) (List.mem_cons_self _ _)).symm]

theorem runBlocks_length (init params : Dict) (result : Trajectory) :
    ∀ (blocks : List Block) (s : Nat) (base : Dict) (substeps out : List Dict),
      runBlocks init params result blocks s base substeps = .ok out →
      out.length = substeps.length + blocks.length := by
  intro blocks
  induction blocks with
  | nil =>
      intro s base substeps out h
      injection h with h
      simp [← h]
  | cons blk rest ih =>
      intro s base substeps out h
      rw [runBlocks] at h
      cases hv : runVariables init params s result blk.policies blk.vars
          (setItem base "substep" (.int (s + 1))) with
      | error e => rw [hv] at h; cases h
      | ok substate =>
          rw [hv] at h
          have := ih _ _ _ _ h
          simp only [List.length_append, List.length_cons, List.length_nil] at this ⊢
          omega

theorem runBlocks_meta (init params : Dict) (result : Trajectory)
    (rv tv : Option Value) :
    ∀ (blocks : List Block),
      (∀ blk ∈ blocks, ∀ kv ∈ blk.vars, kv.1 ≠ "run" ∧ kv.1 ≠ "timestep") →
      ∀ (s : Nat) (base : Dict) (substeps out : List Dict),
        runBlocks init params result blocks s base substeps = .ok out →
        dlookup base "run" = rv → dlookup base "timestep" = tv →
        (∀ d ∈ substeps, dlookup d "run" = rv ∧ dlookup d "timestep" = tv) →
        ∀ d ∈ out, dlookup d "run" = rv ∧ dlookup d "timestep" = tv := by
  intro blocks
  induction blocks with
  | nil =>
      intro _ s base substeps out h _ _ hsub
      injection h with h
      exact h ▸ hsub
  | cons blk rest ih =>
      intro hvars s base substeps out h hrun hts hsub
      rw [runBlocks] at h
      cases hv : runVariables init params s result blk.policies blk.vars
          (setItem base "substep" (.int (s + 1))) with
      | error e => rw [hv] at h; cases h
      | ok substate =>
          rw [hv] at h
          have hvblk := hvars blk (List.mem_cons_self _ _)
          have hrun' : dlookup substate "run" = rv := by
            rw [runVariables_preserve _ _ _ _ _ _ _ _ hv "run"
                (fun kv hkv => (hvblk kv hkv).1),
              dlookup_setItem_ne _ _ _ _ (by decide), hrun]
          have hts' : dlookup substate "timestep" = tv := by
            rw [runVariables_preserve _ _ _ _ _ _ _ _ hv "timestep"
                (fun kv hkv => (hvblk kv hkv).2),
              dlookup_setItem_ne _ _ _ _ (by decide), hts]
          refine ih (fun b hb => hvars b (List.mem_cons_of_mem _ hb)) _ _ _ _ h hrun' hts' ?_
          intro d hd
          rcases List.mem_append.mp hd with hd | hd
          · exact hsub d hd
          · rw [List.mem_singleton.mp hd]
            exact ⟨hrun', hts'⟩

theorem dlookup_stampMeta_run (d : Dict) (simulation subset run timestep : Nat) :
    dlookup (stampMeta d simulation subset run timestep) "run" =
      some (.int (run + 1)) := by
  unfold stampMeta
  rw [dlookup_setItem_ne _ _ _ _ (by decide), dlookup_setItem_self]

theorem dlookup_stampMeta_timestep (d : Dict) (simulation subset run timestep : Nat) :
    dlookup (stampMeta d simulation subset run timestep) "timestep" =
      some (.int timestep) := by
  unfold stampMeta
  rw [dlookup_setItem_self]

/-- The shape of a successful timestep loop: it appends exactly `n` new
entries, and every substate of the `j`-th new entry carries
`run = run + 1` and `timestep = t + j + 1`. -/
theorem runTimesteps_ok_shape (init params : Dict) (blocks : List Block)
    (simulation subset run : Nat)
    (hvars : ∀ blk ∈ blocks, ∀ kv ∈ blk.vars, kv.1 ≠ "run" ∧ kv.1 ≠ "timestep") :
    ∀ (n t : Nat) (result out : Trajectory),
      runTimesteps init params blocks simulation subset run n t result = .ok out →
      ∃ news, out = result ++ news ∧ news.length = n ∧
        ∀ j e, news.get? j = some e → ∀ d ∈ e,
          dlookup d "run" = some (.int (run + 1)) ∧
          dlookup d "timestep" = some (.int (t + j + 1)) := by
  intro n
  induction n with
  | zero =>
      intro t result out h
      injection h with h
      exact ⟨[], by simp [h], rfl, by intro j e he; cases he⟩
  | succ n ih =>
      intro t result out h
      rw [runTimesteps] at h
      cases hfp : fetchPrev result t with
      | error e => rw [hfp] at h; cases h
      | ok prev =>
          simp only [hfp] at h
          cases hrb : runBlocks init params result blocks 0
              (stampMeta prev simulation subset run (t + 1)) [] with
          | error e => rw [hrb] at h; cases h
          | ok substeps =>
              rw [hrb] at h
              obtain ⟨news', hout, hlen, hmeta⟩ := ih _ _ _ h
              refine ⟨substeps :: news', by simp [hout], by simp [hlen], ?_⟩
              intro j e he d hd
              cases j with
              | zero =>
                  injection he with he
                  subst he
                  have := runBlocks_meta init params result
                    (some (.int (run + 1))) (some (.int ((t + 1 : Nat) : Int))) blocks hvars
                    0 _ [] substeps hrb
                    (dlookup_stampMeta_run _ _ _ _ _)
                    (dlookup_stampMeta_timestep _ _ _ _ _)
                    (by intro d hd; cases hd) d hd
                  simpa using this
              | succ j' =>
                  have hm := hmeta j' e he d hd
                  push_cast at hm ⊢
                  have harith : (t : Int) + 1 + (j' : Int) + 1 = (t : Int) + ((j' : Int) + 1) + 1 := by ring
                  rw [harith] at hm
                  exact hm

/-! ## C5: trajectory shape and metadata stamping -/

theorem dlookup_stampInitialState (d : Dict) (simulation subset run : Nat) :
    dlookup (stampInitialState d simulation subset run) "simulation" = some (.int simulation) ∧
    dlookup (stampInitialState d simulation subset run) "subset" = some (.int subset) ∧
    dlookup (stampInitialState d simulation subset run) "run" = some (.int (run + 1)) ∧
    dlookup (stampInitialState d simulation subset run) "substep" = some (.int 0) ∧
    dlookup (stampInitialState d simulation subset run) "timestep" = some (.int 0) := by
  unfold stampInitialState
  refine ⟨?_, ?_, ?_, ?_, ?_⟩
  · rw [dlookup_setItem_ne _ _ _ _ (by decide), dlookup_setItem_ne _ _ _ _ (by decide),
      dlookup_setItem_ne _ _ _ _ (by decide), dlookup_setItem_ne _ _ _ _ (by decide),
      dlookup_setItem_self]
  · rw [dlookup_setItem_ne _ _ _ _ (by decide), dlookup_setItem_ne _ _ _ _ (by decide),
      dlookup_setItem_ne _ _ _ _ (by decide), dlookup_setItem_self]
  · rw [dlookup_setItem_ne _ _ _ _ (by decide), dlookup_setItem_ne _ _ _ _ (by decide),
      dlookup_setItem_self]
  · rw [dlookup_setItem_ne _ _ _ _ (by decide), dlookup_setItem_self]
  · rw [dlookup_setItem_self]

/-- C5 counterexample: the claim quantifies over every successful call, but
a block variable named `timestep` (legal, by the stamping loophole C8
describes) yields a successful run whose timestep-1 entry carries
`timestep = 99`, not `timestep = 1`. -/
theorem C5_counterexample :
    ((single_run 0 1 0 0 []
        [⟨[], [("timestep", PyUpdate.fn (fun _ _ _ _ _ => .ok (.pair "timestep" (.int 99))))]⟩]
        []).1).map (fun tr => (tr.getD 1 []).map (fun d => dlookup d "timestep")) =
      .ok [some (.int 99)] ∧
    some (Value.int 99) ≠ some (Value.int 1) := by
  constructor
  · decide
  · decide

/-- C5 (amended): for every successful `single_run` call *whose blocks
declare no variable named `run` or `timestep`*, the trajectory has exactly
`timesteps + 1` entries; entry 0 is the single stamped initial state
(carrying `simulation`, `subset`, `run = run + 1`, `substep = 0`,
`timestep = 0`); and every substate of entry `t ≥ 1` carries
`run = run + 1` and `timestep = t`. -/
theorem C5_trajectory_shape (simulation tsteps run subset : Nat)
    (initial_state : Dict) (blocks : List Block) (params : Dict) (tr : Trajectory)
    (hok : (single_run simulation tsteps run subset initial_state blocks params).1 = .ok tr)
    (hvars : ∀ blk ∈ blocks, ∀ kv ∈ blk.vars, kv.1 ≠ "run" ∧ kv.1 ≠ "timestep") :
    tr.length = tsteps + 1 ∧
    tr.head? = some [stampInitialState initial_state simulation subset run] ∧
    (dlookup (stampInitialState initial_state simulation subset run) "simulation" = some (.int simulation) ∧
     dlookup (stampInitialState initial_state simulation subset run) "subset" = some (.int subset) ∧
     dlookup (stampInitialState initial_state simulation subset run) "run" = some (.int (run + 1)) ∧
     dlookup (stampInitialState initial_state simulation subset run) "substep" = some (.int 0) ∧
     dlookup (stampInitialState initial_state simulation subset run) "timestep" = some (.int 0)) ∧
    ∀ t e, 1 ≤ t → tr.get? t = some e → ∀ d ∈ e,
      dlookup d "run" = some (.int (run + 1)) ∧
      dlookup d "timestep" = some (.int t) := by
  obtain ⟨news, htr, hlen, hmeta⟩ :=
    runTimesteps_ok_shape (stampInitialState initial_state simulation subset run)
      params blocks simulation subset run hvars tsteps 0
      [[stampInitialState initial_state simulation subset run]] tr hok
  subst htr
  refine ⟨by simp [hlen, Nat.add_comm], by simp, dlookup_stampInitialState _ _ _ _, ?_⟩
  intro t e ht hte d hd
  obtain ⟨j, rfl⟩ : ∃ j, t = j + 1 := ⟨t - 1, by omega⟩
  have hj : news.get? j = some e := by
    simpa using hte
  have hm := hmeta j e hj d hd
  refine ⟨hm.1, ?_⟩
  have := hm.2
  push_cast at this ⊢
  simpa using this

/-- The spec's "single update, single substep" test model: one state
variable `x`, one block whose update increments `x`. -/
def specTestInit : Dict := [("x", Value.int 0)]

def specTestUpdate : PyUpdate :=
  .fn (fun _ _ _ substate _ =>
    match dlookup substate "x" with
    | some (.int n) => .ok (.pair "x" (.int (n + 1)))
    | _ => .ok (.pair "x" (.int 0)))

def specTestBlocks : List Block := [⟨[], [("x", specTestUpdate)]⟩]

def specTestTrajectory : Trajectory :=
  [[[("x", Value.int 0), ("simulation", Value.int 0), ("subset", Value.int 0),
     ("run", Value.int 1), ("substep", Value.int 0), ("timestep", Value.int 0)]],
   [[("x", Value.int 1), ("simulation", Value.int 0), ("subset", Value.int 0),
     ("run", Value.int 1), ("substep", Value.int 1), ("timestep", Value.int 1)]],
   [[("x", Value.int 2), ("simulation", Value.int 0), ("subset", Value.int 0),
     ("run", Value.int 1), ("substep", Value.int 1), ("timestep", Value.int 2)]],
   [[("x", Value.int 3), ("simulation", Value.int 0), ("subset", Value.int 0),
     ("run", Value.int 1), ("substep", Value.int 1), ("timestep", Value.int 3)]]]

/-- C5 witness for the amended claim: the spec's test model
(`initial_state = {x:0}`, one incrementing block, `timesteps = 3`) — four
trajectory entries, all metadata as claimed, and the final substate has
`x = 3`. -/
theorem C5_trajectory_shape_witness :
    (specTestTrajectory.length = 3 + 1 ∧
     specTestTrajectory.head? = some [stampInitialState specTestInit 0 0 0] ∧
     (dlookup (stampInitialState specTestInit 0 0 0) "simulation" = some (.int 0) ∧
      dlookup (stampInitialState specTestInit 0 0 0) "subset" = some (.int 0) ∧
      dlookup (stampInitialState specTestInit 0 0 0) "run" = some (.int (0 + 1)) ∧
      dlookup (stampInitialState specTestInit 0 0 0) "substep" = some (.int 0) ∧
      dlookup (stampInitialState specTestInit 0 0 0) "timestep" = some (.int 0)) ∧
     ∀ t e, 1 ≤ t → specTestTrajectory.get? t = some e → ∀ d ∈ e,
       dlookup d "run" = some (.int (0 + 1)) ∧
       dlookup d "timestep" = some (.int t)) ∧
    dlookup ((specTestTrajectory.getD 3 []).getD 0 []) "x" = some (.int 3) :=
  ⟨C5_trajectory_shape 0 3 0 0 specTestInit specTestBlocks [] specTestTrajectory
     (by decide) (by decide), by decide⟩

/-! ## C10: the empty-blocks underflow -/

theorem gatherPolicyResults_error_exc (params : Dict) (substep : Nat)
    (result : Trajectory) (substate : Dict) :
    ∀ (pols : List (String × PyPolicy)) (e : EngineFailure),
      gatherPolicyResults params substep result substate pols = .error e →
      ∃ q, e = .exc q := by
  intro pols
  induction pols with
  | nil => intro e h; cases h
  | cons p rest ih =>
      intro e h
      obtain ⟨name, f⟩ := p
      rw [gatherPolicyResults] at h
      cases hc : callPolicy f params substep result substate with
      | error e' =>
          rw [hc] at h
          injection h with h
          exact ⟨.wrapped e', h.symm⟩
      | ok ret =>
          rw [hc] at h
          cases ret with
          | nonDict =>
              injection h with h
              exact ⟨_, h.symm⟩
          | dict d =>
              cases hg : gatherPolicyResults params substep result substate rest with
              | error e' =>
                  rw [hg] at h
                  injection h with h
                  obtain ⟨q, hq⟩ := ih e' hg
                  exact ⟨q, h ▸ hq⟩
              | ok ds => rw [hg] at h; cases h

theorem mergeInto_error_eq (d : Dict) :
    ∀ (acc : Dict) (e : EngineFailure), mergeInto acc d = .error e → e = .mergePanic := by
  induction d with
  | nil => intro acc e h; cases h
  | cons kv rest ih =>
      intro acc e h
      obtain ⟨k, v⟩ := kv
      rw [mergeInto] at h
      cases hd : dlookup acc k with
      | none => simp only [hd] at h; exact ih _ _ h
      | some v0 =>
          simp only [hd] at h
          cases hadd : v0.add v with
          | none =>
              simp only [hadd] at h
              injection h with h
              exact h.symm
          | some s => simp only [hadd] at h; exact ih _ _ h

theorem mergeAll_error_eq (ds : List Dict) :
    ∀ (acc : Dict) (e : EngineFailure), mergeAll acc ds = .error e → e = .mergePanic := by
  induction ds with
  | nil => intro acc e h; cases h
  | cons d rest ih =>
      intro acc e h
      rw [mergeAll] at h
      cases hm : mergeInto acc d with
      | error e' =>
          rw [hm] at h
          injection h with h
          exact h ▸ mergeInto_error_eq d acc e' hm
      | ok acc' => rw [hm] at h; exact ih _ _ h

theorem reduce_signals_error_shape (params : Dict) (substep : Nat)
    (result : Trajectory) (substate : Dict) (policies : List (String × PyPolicy))
    (e : EngineFailure)
    (h : reduce_signals params substep result substate policies = .error e) :
    (∃ q, e = .exc q) ∨ e = .mergePanic := by
  unfold reduce_signals at h
  cases hg : gatherPolicyResults params substep result substate policies with
  | error e' =>
      rw [hg] at h
      injection h with h
      exact .inl (h ▸ gatherPolicyResults_error_exc params substep result substate policies e' hg)
  | ok rs =>
      rw [hg] at h
      match rs with
      | [] => cases h
      | [d] => cases h
      | d₁ :: d₂ :: rest => exact .inr (mergeAll_error_eq _ _ _ h)

theorem wrapRun_ne_fetchPrevPanic (e : EngineFailure)
    (h : (∃ q, e = .exc q) ∨ e = .mergePanic) :
    wrapRun e ≠ .fetchPrevPanic := by
  rcases h with ⟨q, rfl⟩ | rfl <;> simp [wrapRun]

theorem applyUpdate_error_exc (init : Dict) (state : String) (substate : Dict)
    (ret : UpdateRet) (e : EngineFailure)
    (h : applyUpdate init state substate ret = .error e) : ∃ q, e = .exc q := by
  cases ret with
  | nonTuple =>
      simp only [applyUpdate] at h
      injection h with h
      exact ⟨_, h.symm⟩
  | pair k v =>
      simp only [applyUpdate] at h
      split at h
      · injection h with h; exact ⟨_, h.symm⟩
      · split at h
        · cases h
        · injection h with h; exact ⟨_, h.symm⟩

theorem processVariable_error_ne_fetch (init params : Dict) (substep : Nat)
    (result : Trajectory) (policies : List (String × PyPolicy))
    (state : String) (function : PyUpdate) (substate : Dict) (e : EngineFailure)
    (h : processVariable init params substep result policies state function substate = .error e) :
    e ≠ .fetchPrevPanic := by
  unfold processVariable at h
  split at h
  · injection h with h
    rw [← h]
    decide
  · cases hrs : reduce_signals params substep result substate policies with
    | error e' =>
        simp only [hrs] at h
        injection h with h
        exact h ▸ wrapRun_ne_fetchPrevPanic e'
          (reduce_signals_error_shape params substep result substate policies e' hrs)
    | ok signals =>
        simp only [hrs] at h
        cases function with
        | notCallableObj =>
            injection h with h
            rw [← h]
            decide
        | fn f =>
            cases hf : f params substep result substate signals with
            | error e' =>
                simp only [hf] at h
                injection h with h
                rw [← h]
                simp
            | ok ret =>
                simp only [hf] at h
                exact applyUpdate_error_exc init state substate ret e h |>.elim
                  (fun q hq => by rw [hq]; simp)

theorem runVariables_error_ne_fetch (init params : Dict) (substep : Nat)
    (result : Trajectory) (policies : List (String × PyPolicy)) :
    ∀ (varsL : List (String × PyUpdate)) (substate : Dict) (e : EngineFailure),
      runVariables init params substep result policies varsL substate = .error e →
      e ≠ .fetchPrevPanic := by
  intro varsL
  induction varsL with
  | nil => intro substate e h; cases h
  | cons kv rest ih =>
      intro substate e h
      obtain ⟨state, function⟩ := kv
      rw [runVariables] at h
      cases hp : processVariable init params substep result policies state function substate with
      | error e' =>
          rw [hp] at h
          injection h with h
          exact h ▸ processVariable_error_ne_fetch init params substep result
            policies state function substate e' hp
      | ok substate' => rw [hp] at h; exact ih _ _ h

theorem runBlocks_error_ne_fetch (init params : Dict) (result : Trajectory) :
    ∀ (blocks : List Block) (s : Nat) (base : Dict) (substeps : List Dict)
      (e : EngineFailure),
      runBlocks init params result blocks s base substeps = .error e →
      e ≠ .fetchPrevPanic := by
  intro blocks
  induction blocks with
  | nil => intro s base substeps e h; cases h
  | cons blk rest ih =>
      intro s base substeps e h
      rw [runBlocks] at h
      cases hv : runVariables init params s result blk.policies blk.vars
          (setItem base "substep" (.int (s + 1))) with
      | error e' =>
          rw [hv] at h
          injection h with h
          exact h ▸ runVariables_error_ne_fetch init params s result
            blk.policies blk.vars _ e' hv
      | ok substate => rw [hv] at h; exact ih _ _ _ _ h

theorem fetchPrev_ok_of (result : Trajectory) (t : Nat) (hne : result ≠ [])
    (hall : ∀ e ∈ result, e ≠ ([] : List Dict)) :
    ∃ d, fetchPrev result t = .ok d := by
  cases t with
  | zero =>
      match result, hne with
      | e0 :: rest, _ =>
          match e0, hall e0 (List.mem_cons_self _ _) with
          | d :: ds, _ => exact ⟨d, rfl⟩
  | succ t =>
      have h1 : result.getLast? = some (result.getLast hne) :=
        List.getLast?_eq_getLast result hne
      have h2 : result.getLast hne ≠ [] := hall _ (List.getLast_mem hne)
      have h3 : (result.getLast hne).getLast? =
          some ((result.getLast hne).getLast h2) :=
        List.getLast?_eq_getLast _ h2
      refine ⟨(result.getLast hne).getLast h2, ?_⟩
      simp only [fetchPrev, h1, h3]

theorem runTimesteps_no_fetch (init params : Dict) (blocks : List Block)
    (simulation subset run : Nat) (hbl : blocks ≠ []) :
    ∀ (n t : Nat) (result : Trajectory), result ≠ [] →
      (∀ e ∈ result, e ≠ ([] : List Dict)) →
      runTimesteps init params blocks simulation subset run n t result ≠
        .error .fetchPrevPanic := by
  intro n
  induction n with
  | zero => intro t result _ _ h; cases h
  | succ n ih =>
      intro t result hne hall h
      rw [runTimesteps] at h
      obtain ⟨prev, hfp⟩ := fetchPrev_ok_of result t hne hall
      simp only [hfp] at h
      cases hrb : runBlocks init params result blocks 0
          (stampMeta prev simulation subset run (t + 1)) [] with
      | error e =>
          simp only [hrb] at h
          injection h with h
          exact runBlocks_error_ne_fetch init params result blocks 0 _ [] e hrb h
      | ok substeps =>
          simp only [hrb] at h
          have hlen := runBlocks_length init params result blocks 0 _ [] substeps hrb
          have hsne : substeps ≠ [] := by
            intro hs
            rw [hs] at hlen
            simp only [List.length_nil, Nat.zero_add] at hlen
            exact hbl (List.length_eq_zero.mp hlen.symm)
          refine ih (t + 1) (result ++ [substeps]) (by simp) ?_ h
          intro e he
          rcases List.mem_append.mp he with h1 | h1
          · exact hall e h1
          · rw [List.mem_singleton.mp h1]
            exact hsne

/-- C10: `single_run` terminates normally only when the blocks list is
non-empty or `timesteps ≤ 1` — with empty blocks and `timesteps ≥ 2` the
previous-substate fetch underflows on the empty timestep entry and the
call fails with the fetch panic; with non-empty blocks that access is
always in range (the fetch panic is unreachable); with empty blocks and
`timesteps ≤ 1` the call succeeds. -/
theorem C10_blocks_nonempty_safety (simulation tsteps run subset : Nat)
    (initial_state : Dict) (blocks : List Block) (params : Dict) :
    (blocks = [] → 2 ≤ tsteps →
      (single_run simulation tsteps run subset initial_state blocks params).1 =
        .error .fetchPrevPanic) ∧
    (blocks ≠ [] →
      (single_run simulation tsteps run subset initial_state blocks params).1 ≠
        .error .fetchPrevPanic) ∧
    (blocks = [] → tsteps ≤ 1 →
      runOk (single_run simulation tsteps run subset initial_state blocks params).1 = true) := by
  refine ⟨?_, ?_, ?_⟩
  · rintro rfl ht
    obtain ⟨m, rfl⟩ : ∃ m, tsteps = m + 2 := ⟨tsteps - 2, by omega⟩
    show runTimesteps (stampInitialState initial_state simulation subset run)
      params [] simulation subset run (m + 2) 0
      [[stampInitialState initial_state simulation subset run]] = _
    rw [show m + 2 = (m + 1) + 1 from rfl, runTimesteps]
    have hfp1 : fetchPrev [[stampInitialState initial_state simulation subset run]] 0 =
        .ok (stampInitialState initial_state simulation subset run) := rfl
    simp only [hfp1]
    have hrb : runBlocks (stampInitialState initial_state simulation subset run)
        params [[stampInitialState initial_state simulation subset run]] [] 0
        (stampMeta (stampInitialState initial_state simulation subset run)
          simulation subset run 1) [] = .ok [] := rfl
    simp only [hrb, runTimesteps]
    have hfp2 : fetchPrev
        ([[stampInitialState initial_state simulation subset run]] ++ [[]]) (0 + 1) =
        .error .fetchPrevPanic := rfl
    simp only [hfp2]
  · intro hbl
    exact runTimesteps_no_fetch (stampInitialState initial_state simulation subset run)
      params blocks simulation subset run hbl tsteps 0
      [[stampInitialState initial_state simulation subset run]]
      (by simp)
      (by
        intro e he
        rw [List.mem_singleton.mp he]
        simp)
  · rintro rfl ht
    have h01 : tsteps = 0 ∨ tsteps = 1 := by omega
    rcases h01 with rfl | rfl
    · simp [single_run, runTimesteps, runOk]
    · simp [single_run, runTimesteps, fetchPrev, runBlocks, runOk]

/-- C10 witness: with `{x:0}` as initial state — empty blocks and
`timesteps = 2` hit the fetch panic; one (empty) block never does; empty
blocks with `timesteps = 1` succeed. -/
theorem C10_blocks_nonempty_safety_witness :
    ((single_run 0 2 0 0 [("x", Value.int 0)] [] []).1 = .error .fetchPrevPanic) ∧
    ((single_run 0 2 0 0 [("x", Value.int 0)] [⟨[], []⟩] []).1 ≠ .error .fetchPrevPanic) ∧
    (runOk (single_run 0 1 0 0 [("x", Value.int 0)] [] []).1 = true) :=
  ⟨(C10_blocks_nonempty_safety 0 2 0 0 [("x", Value.int 0)] [] []).1 rfl (by decide),
   (C10_blocks_nonempty_safety 0 2 0 0 [("x", Value.int 0)] [⟨[], []⟩] []).2.1
     (List.cons_ne_nil _ _),
   (C10_blocks_nonempty_safety 0 1 0 0 [("x", Value.int 0)] [] []).2.2 rfl (by decide)⟩

/-! ## C2: the heap-based embedding of `single_run`

To settle the isolation claim, substates become heap objects with explicit
addresses, and an update function additionally gets a *mutation*
component: after observing its arguments it may overwrite, in place, the
dictionary object it received as its `substate` argument (the engine's
pickled deep copy, lib.rs 210-211).  Its observable inputs are exactly
what the Rust code passes: `params`, `substep`, the contents of the
trajectory list, its substate copy's contents, and the reduced signals. -/

/-- Heap address of a dictionary object. -/
abbrev Addr := Nat

/-- A heap of Python dictionary objects; the address is the index. -/
abbrev Heap := List Dict

/-- Read the dictionary object at an address. -/
def hread (h : Heap) (a : Addr) : Dict :=
  (h.get? a).getD []

/-- Overwrite the dictionary object at an address in place. -/
def hwrite (h : Heap) (a : Addr) (d : Dict) : Heap :=
  h.set a d

/-- Resolve a nested address structure to trajectory contents. -/
def readTraj (h : Heap) (tr : List (List Addr)) : Trajectory :=
  tr.map (fun e => e.map (hread h))

/-- A state-update target in the heap model: callable targets carry both
their returned value (`ret`) and the in-place mutation they perform on
their substate argument (`mut`, the new contents of that object). -/
inductive HUpdate where
  | notCallableObj : HUpdate
  | fn : (Dict → Nat → Trajectory → Dict → Dict → Except PyExc UpdateRet) →
         (Dict → Nat → Trajectory → Dict → Dict → Dict) → HUpdate

/-- Forget the mutation component. -/
def HUpdate.toPure : HUpdate → PyUpdate
  | .notCallableObj => .notCallableObj
  | .fn ret _ => .fn ret

/-- A partial state update block in the heap model. -/
structure HBlock where
  policies : List (String × PyPolicy)
  vars : List (String × HUpdate)

/-- Forget the mutation components of a block. -/
def HBlock.toPure (b : HBlock) : Block :=
  ⟨b.policies, b.vars.map (fun kv => (kv.1, kv.2.toPure))⟩

/-- Heap-level lib.rs 197-276 per-variable step: deep-copy the substate
object at `u` into a fresh object `c` (pickle dumps/loads), reduce signals
on the copy, call the update — which first mutates its copy in place and
returns its result — then validate and apply the result onto the
accumulating object at `u`. -/
def hprocessVariable (init params : Dict) (substep : Nat)
    (resultAddrs : List (List Addr)) (policies : List (String × PyPolicy))
    (state : String) (function : HUpdate) (h : Heap) (u : Addr) :
    Except EngineFailure Heap :=
  if containsKey init state = false then
    .error (.exc (.keyError "Invalid state key in partial state update block"))
  else
    let c := h.length
    let h1 := h ++ [hread h u]
    let traj := readTraj h1 resultAddrs
    match reduce_signals params substep traj (hread h1 c) policies with
    | .error e => .error (wrapRun e)
    | .ok signals =>
        match function with
        | .notCallableObj =>
            .error (.exc (.typeError "State update function is not callable"))
        | .fn ret mutf =>
            let h2 := hwrite h1 c (mutf params substep traj (hread h1 c) signals)
            match ret params substep traj (hread h1 c) signals with
            | .error e => .error (.exc (.wrapped e))
            | .ok r =>
                match applyUpdate init state (hread h2 u) r with
                | .error e => .error e
                | .ok d' => .ok (hwrite h2 u d')

/-- Heap-level variable loop of one substep. -/
def hrunVariables (init params : Dict) (substep : Nat)
    (resultAddrs : List (List Addr)) (policies : List (String × PyPolicy)) :
    List (String × HUpdate) → Heap → Addr → Except EngineFailure Heap
  | [], h, _ => .ok h
  | (state, function) :: rest, h, u =>
      match hprocessVariable init params substep resultAddrs policies state function h u with
      | .error e => .error e
      | .ok h' => hrunVariables init params substep resultAddrs policies rest h' u

/-- Heap-level block loop of one timestep: each substep's substate is a
fresh copy (a new object) of the previous substate object (or of the
timestep seed), whose `substep` metadata is then set. -/
def hrunBlocks (init params : Dict) (resultAddrs : List (List Addr)) :
    List HBlock → Nat → Heap → Addr → List Addr →
    Except EngineFailure (Heap × List Addr)
  | [], _, h, _, substeps => .ok (h, substeps)
  | blk :: rest, s, h, base, substeps =>
      let u := h.length
      let h1 := h ++ [hread h base]
      let h2 := hwrite h1 u (setItem (hread h1 u) "substep" (.int (s + 1)))
      match hrunVariables init params s resultAddrs blk.policies blk.vars h2 u with
      | .error e => .error e
      | .ok h3 =>
          hrunBlocks init params resultAddrs rest (s + 1) h3 u (substeps ++ [u])

/-- Heap-level timestep loop: the seed is read (and copied into a fresh
stamped object) from the trajectory contents exactly as in the pure
model. -/
def hrunTimesteps (init params : Dict) (blocks : List HBlock)
    (simulation subset run : Nat) :
    Nat → Nat → Heap → List (List Addr) →
    Except EngineFailure (Heap × List (List Addr))
  | 0, _, h, resultAddrs => .ok (h, resultAddrs)
  | n + 1, t, h, resultAddrs =>
      match fetchPrev (readTraj h resultAddrs) t with
      | .error e => .error e
      | .ok prev =>
          let p := h.length
          let h1 := h ++ [stampMeta prev simulation subset run (t + 1)]
          match hrunBlocks init params resultAddrs blocks 0 h1 p [] with
          | .error e => .error e
          | .ok (h2, saddrs) =>
              hrunTimesteps init params blocks simulation subset run n (t + 1)
                h2 (resultAddrs ++ [saddrs])

/-- Heap-level `single_run`: the heap starts with the (already stamped)
copy of the initial state as trajectory entry 0. -/
def h_single_run (simulation timesteps run subset : Nat) (initial_state : Dict)
    (blocks : List HBlock) (params : Dict) :
    Except EngineFailure (Heap × List (List Addr)) :=
  let init := stampInitialState initial_state simulation subset run
  hrunTimesteps init params blocks simulation subset run timesteps 0 [init] [[0]]

/-! ### Heap frame lemmas -/

theorem hread_append_lt (h : Heap) (d : Dict) (a : Addr) (ha : a < h.length) :
    hread (h ++ [d]) a = hread h a := by
  simp [hread, List.getElem?_append_left ha]

theorem hread_append_len (h : Heap) (d : Dict) :
    hread (h ++ [d]) h.length = d := by
  simp [hread, List.getElem?_concat_length]

theorem hread_set_ne (h : Heap) (a b : Addr) (d : Dict) (hab : b ≠ a) :
    hread (hwrite h b d) a = hread h a := by
  simp [hread, hwrite, List.getElem?_set_ne hab]

theorem hread_set_self (h : Heap) (b : Addr) (d : Dict) (hb : b < h.length) :
    hread (hwrite h b d) b = d := by
  simp [hread, hwrite, List.getElem?_set_eq_of_lt d hb]

theorem hwrite_length (h : Heap) (b : Addr) (d : Dict) :
    (hwrite h b d).length = h.length := by
  simp [hwrite]

theorem readTraj_congr (h h' : Heap) (tr : List (List Addr))
    (hc : ∀ a ∈ tr.flatten, hread h' a = hread h a) :
    readTraj h' tr = readTraj h tr := by
  unfold readTraj
  induction tr with
  | nil => rfl
  | cons e rest ih =>
      simp only [List.map_cons, List.cons.injEq]
      constructor
      · exact List.map_congr_left (fun a ha =>
          hc a (by simp [List.mem_flatten]; exact .inl ha))
      · exact ih (fun a ha => hc a (by
          simp only [List.flatten_cons, List.mem_append]
          exact .inr ha))

/-! ### Refinement of the heap model by the pure model -/

/-- Relates a heap-level per-variable/variable-loop outcome at substate
address `u` to the pure outcome: identical errors, or a final heap whose
object at `u` holds the pure result, that has only grown, and in which no
pre-existing object other than `u` was written. -/
inductive VarRel (h : Heap) (u : Addr) :
    Except EngineFailure Heap → Except EngineFailure Dict → Prop
  | err (e : EngineFailure) : VarRel h u (.error e) (.error e)
  | ok (h' : Heap) (d' : Dict) :
      hread h' u = d' →
      h.length ≤ h'.length →
      (∀ a, a < h.length → a ≠ u → hread h' a = hread h a) →
      VarRel h u (.ok h') (.ok d')

theorem VarRel_weaken (h h' : Heap) (u : Addr)
    (X : Except EngineFailure Heap) (Y : Except EngineFailure Dict)
    (hrel : VarRel h' u X Y) (hle : h.length ≤ h'.length)
    (hframe : ∀ a, a < h.length → a ≠ u → hread h' a = hread h a) :
    VarRel h u X Y := by
  cases hrel with
  | err e => exact .err e
  | ok h'' d' hd hle' hframe' =>
      exact .ok h'' d' hd (le_trans hle hle') (fun a ha hau =>
        (hframe' a (lt_of_lt_of_le ha hle) hau).trans (hframe a ha hau))

theorem hprocessVariable_refines (init params : Dict) (substep : Nat)
    (RA : List (List Addr)) (policies : List (String × PyPolicy))
    (state : String) (function : HUpdate) (h : Heap) (u : Addr)
    (hu : u < h.length)
    (hRA : ∀ a ∈ RA.flatten, a < h.length ∧ a ≠ u) :
    VarRel h u
      (hprocessVariable init params substep RA policies state function h u)
      (processVariable init params substep (readTraj h RA) policies state
        function.toPure (hread h u)) := by
  have htraj : readTraj (h ++ [hread h u]) RA = readTraj h RA :=
    readTraj_congr _ _ _ (fun a ha => hread_append_lt h _ a (hRA a ha).1)
  have hcopy : hread (h ++ [hread h u]) h.length = hread h u := hread_append_len h _
  by_cases hck : containsKey init state = false
  · simp only [hprocessVariable, processVariable, if_pos hck]
    exact .err _
  · simp only [hprocessVariable, processVariable, if_neg hck, htraj, hcopy]
    cases hrs : reduce_signals params substep (readTraj h RA) (hread h u) policies with
    | error e =>
        simp only [hrs]
        exact .err _
    | ok signals =>
        simp only [hrs]
        cases function with
        | notCallableObj =>
            simp only [HUpdate.toPure]
            exact .err _
        | fn ret mutf =>
            simp only [HUpdate.toPure]
            cases hr : ret params substep (readTraj h RA) (hread h u) signals with
            | error e =>
                simp only [hr]
                exact .err _
            | ok r =>
                simp only [hr]
                have hne1 : h.length ≠ u := Nat.ne_of_gt hu
                have hru : hread (hwrite (h ++ [hread h u]) h.length
                    (mutf params substep (readTraj h RA) (hread h u) signals)) u =
                    hread h u := by
                  rw [hread_set_ne _ u h.length _ hne1, hread_append_lt h _ u hu]
                rw [hru]
                cases ha : applyUpdate init state (hread h u) r with
                | error e =>
                    simp only [ha]
                    exact .err _
                | ok d' =>
                    simp only [ha]
                    refine .ok _ d' ?_ ?_ ?_
                    · apply hread_set_self
                      rw [hwrite_length]
                      simp only [List.length_append, List.length_cons, List.length_nil]
                      exact Nat.lt_succ_of_lt hu

                    · rw [hwrite_length, hwrite_length]
                      simp
                    · intro a halt hau
                      have hne2 : h.length ≠ a := Nat.ne_of_gt halt
                      rw [hread_set_ne _ a u _ (Ne.symm hau),
                        hread_set_ne _ a h.length _ hne2,
                        hread_append_lt h _ a halt]

theorem hrunVariables_refines (init params : Dict) (substep : Nat)
    (RA : List (List Addr)) (policies : List (String × PyPolicy)) :
    ∀ (varsHL : List (String × HUpdate)) (h : Heap) (u : Addr),
      u < h.length →
      (∀ a ∈ RA.flatten, a < h.length ∧ a ≠ u) →
      VarRel h u
        (hrunVariables init params substep RA policies varsHL h u)
        (runVariables init params substep (readTraj h RA) policies
          (varsHL.map (fun kv => (kv.1, kv.2.toPure))) (hread h u)) := by
  intro varsHL
  induction varsHL with
  | nil =>
      intro h u hu hRA
      exact .ok h (hread h u) rfl le_rfl (fun _ _ _ => rfl)
  | cons kv rest ih =>
      intro h u hu hRA
      obtain ⟨state, function⟩ := kv
      rw [hrunVariables]
      simp only [List.map_cons]
      rw [runVariables]
      have hrel := hprocessVariable_refines init params substep RA policies
        state function h u hu hRA
      generalize hH : hprocessVariable init params substep RA policies state function h u = hres at hrel ⊢
      generalize hP : processVariable init params substep (readTraj h RA) policies state
        function.toPure (hread h u) = pres at hrel ⊢
      cases hrel with
      | err e => exact .err e
      | ok h' d' hd hle hframe =>
          have hu' : u < h'.length := lt_of_lt_of_le hu hle
          have hRA' : ∀ a ∈ RA.flatten, a < h'.length ∧ a ≠ u := fun a ha =>
            ⟨lt_of_lt_of_le (hRA a ha).1 hle, (hRA a ha).2⟩
          have ihrel := ih h' u hu' hRA'
          rw [readTraj_congr h h' RA (fun a ha => hframe a (hRA a ha).1 (hRA a ha).2),
            hd] at ihrel
          exact VarRel_weaken h h' u _ _ ihrel hle hframe

/-- Relates a heap-level block-loop outcome to the pure outcome: identical
errors, or — for success — the returned substep addresses extend the
accumulator with fresh, pairwise-distinct addresses whose contents are the
pure substep results, while every pre-existing object is untouched. -/
inductive BlocksRel (h : Heap) (substeps : List Addr) :
    Except EngineFailure (Heap × List Addr) → Except EngineFailure (List Dict) → Prop
  | err (e : EngineFailure) : BlocksRel h substeps (.error e) (.error e)
  | ok (h' : Heap) (saddrs news : List Addr) (ds : List Dict) :
      saddrs = substeps ++ news →
      saddrs.map (hread h') = ds →
      h.length ≤ h'.length →
      (∀ a, a < h.length → hread h' a = hread h a) →
      (∀ a ∈ news, h.length ≤ a ∧ a < h'.length) →
      news.Nodup →
      BlocksRel h substeps (.ok (h', saddrs)) (.ok ds)

theorem BlocksRel_extend (h h3 : Heap) (substeps : List Addr)
    (X : Except EngineFailure (Heap × List Addr))
    (Y : Except EngineFailure (List Dict))
    (hrel : BlocksRel h3 (substeps ++ [h.length]) X Y)
    (hlen : h.length < h3.length)
    (hframe : ∀ a, a < h.length → hread h3 a = hread h a) :
    BlocksRel h substeps X Y := by
  cases hrel with
  | err e => exact .err e
  | ok h4 saddrs news ds heq hmap hle4 hframe4 hnews hnd =>
      refine .ok h4 saddrs (h.length :: news) ds ?_ hmap ?_ ?_ ?_ ?_
      · rw [heq, List.append_assoc]
        rfl
      · exact le_trans (le_of_lt hlen) hle4
      · intro a ha
        exact (hframe4 a (lt_trans ha hlen)).trans (hframe a ha)
      · intro a ha
        rcases List.mem_cons.mp ha with rfl | hmem
        · exact ⟨le_rfl, lt_of_lt_of_le hlen hle4⟩
        · exact ⟨le_trans (le_of_lt hlen) (hnews a hmem).1, (hnews a hmem).2⟩
      · refine List.nodup_cons.mpr ⟨?_, hnd⟩
        intro hmem
        have h1 := (hnews _ hmem).1
        exact absurd (lt_of_lt_of_le hlen h1) (Nat.lt_irrefl _)

theorem hrunBlocks_refines (init params : Dict) (RA : List (List Addr)) :
    ∀ (blocks : List HBlock) (s : Nat) (h : Heap) (base : Addr)
      (substeps : List Addr),
      base < h.length →
      (∀ a ∈ RA.flatten, a < h.length) →
      (∀ a ∈ substeps, a < h.length) →
      BlocksRel h substeps
        (hrunBlocks init params RA blocks s h base substeps)
        (runBlocks init params (readTraj h RA) (blocks.map HBlock.toPure) s
          (hread h base) (substeps.map (hread h))) := by
  intro blocks
  induction blocks with
  | nil =>
      intro s h base substeps hbase hRA hsub
      exact .ok h substeps [] (substeps.map (hread h))
        (List.append_nil substeps).symm rfl le_rfl (fun _ _ => rfl)
        (by intro a ha; cases ha) List.nodup_nil
  | cons blk rest ih =>
      intro s h base substeps hbase hRA hsub
      simp only [hrunBlocks, runBlocks, List.map_cons, HBlock.toPure]
      have hb1 : hread (h ++ [hread h base]) h.length = hread h base :=
        hread_append_len h _
      rw [hb1]
      have hlen2 : (hwrite (h ++ [hread h base]) h.length
          (setItem (hread h base) "substep" (.int (s + 1)))).length = h.length + 1 := by
        rw [hwrite_length]
        simp
      have hu2 : h.length < (hwrite (h ++ [hread h base]) h.length
          (setItem (hread h base) "substep" (.int (s + 1)))).length := by
        rw [hlen2]
        exact Nat.lt_succ_self _
      have hRA2 : ∀ a ∈ RA.flatten,
          a < (hwrite (h ++ [hread h base]) h.length
            (setItem (hread h base) "substep" (.int (s + 1)))).length ∧ a ≠ h.length := by
        intro a ha
        have hah := hRA a ha
        constructor
        · rw [hlen2]
          exact Nat.lt_succ_of_lt hah
        · exact Nat.ne_of_lt hah
      have hfr2 : ∀ a, a < h.length →
          hread (hwrite (h ++ [hread h base]) h.length
            (setItem (hread h base) "substep" (.int (s + 1)))) a = hread h a := by
        intro a ha
        have hne3 : h.length ≠ a := Nat.ne_of_gt ha
        rw [hread_set_ne _ a h.length _ hne3, hread_append_lt h _ a ha]
      have hreadu : hread (hwrite (h ++ [hread h base]) h.length
          (setItem (hread h base) "substep" (.int (s + 1)))) h.length =
          setItem (hread h base) "substep" (.int (s + 1)) := by
        apply hread_set_self
        simp
      have hvrel := hrunVariables_refines init params s RA blk.policies blk.vars
        (hwrite (h ++ [hread h base]) h.length
          (setItem (hread h base) "substep" (.int (s + 1)))) h.length hu2 hRA2
      rw [readTraj_congr h _ RA (fun a ha => hfr2 a (hRA a ha)), hreadu] at hvrel
      generalize hH : hrunVariables init params s RA blk.policies blk.vars
        (hwrite (h ++ [hread h base]) h.length
          (setItem (hread h base) "substep" (.int (s + 1)))) h.length = hres at hvrel ⊢
      generalize hP : runVariables init params s (readTraj h RA) blk.policies
        (blk.vars.map (fun kv => (kv.1, kv.2.toPure)))
        (setItem (hread h base) "substep" (.int (s + 1))) = pres at hvrel ⊢
      cases hvrel with
      | err e => exact .err e
      | ok h3 d3 hd3 hle3 hframe3 =>
          have hlen3 : h.length < h3.length := lt_of_lt_of_le hu2 hle3
          have hframeH : ∀ a, a < h.length → hread h3 a = hread h a := by
            intro a ha
            rw [hframe3 a (by rw [hlen2]; exact Nat.lt_succ_of_lt ha) (Nat.ne_of_lt ha),
              hfr2 a ha]
          have hRA3 : ∀ a ∈ RA.flatten, a < h3.length := fun a ha =>
            lt_trans (hRA a ha) hlen3
          have hsub3 : ∀ a ∈ substeps ++ [h.length], a < h3.length := by
            intro a ha
            rcases List.mem_append.mp ha with h1 | h1
            · exact lt_trans (hsub a h1) hlen3
            · rw [List.mem_singleton.mp h1]
              exact hlen3
          have hRA3' : ∀ a ∈ RA.flatten, hread h3 a = hread h a := fun a ha =>
            hframeH a (hRA a ha)
          have hmap3 : (substeps ++ [h.length]).map (hread h3) =
              substeps.map (hread h) ++ [d3] := by
            rw [List.map_append]
            congr 1
            · exact List.map_congr_left (fun a ha => hframeH a (hsub a ha))
            · simp [hd3]
          have ihrel := ih (s + 1) h3 h.length (substeps ++ [h.length]) hlen3 hRA3 hsub3
          rw [readTraj_congr h h3 RA hRA3'] at ihrel
          rw [hd3] at ihrel
          rw [hmap3] at ihrel
          exact BlocksRel_extend h h3 substeps _ _ ihrel hlen3 hframeH

/-- Relates a heap-level run outcome to the pure outcome: identical
errors, or a final heap and trajectory addresses whose contents are the
pure trajectory and whose substate addresses are pairwise distinct (no
aliasing). -/
inductive TrajRel :
    Except EngineFailure (Heap × List (List Addr)) → Except EngineFailure Trajectory → Prop
  | err (e : EngineFailure) : TrajRel (.error e) (.error e)
  | ok (h : Heap) (tr : List (List Addr)) (ptr : Trajectory) :
      readTraj h tr = ptr →
      tr.flatten.Nodup →
      (∀ a ∈ tr.flatten, a < h.length) →
      TrajRel (.ok (h, tr)) (.ok ptr)

theorem hrunTimesteps_refines (init params : Dict) (blocks : List HBlock)
    (simulation subset run : Nat) :
    ∀ (n t : Nat) (h : Heap) (RA : List (List Addr)),
      (∀ a ∈ RA.flatten, a < h.length) →
      RA.flatten.Nodup →
      TrajRel
        (hrunTimesteps init params blocks simulation subset run n t h RA)
        (runTimesteps init params (blocks.map HBlock.toPure) simulation subset run
          n t (readTraj h RA)) := by
  intro n
  induction n with
  | zero =>
      intro t h RA hRA hnd
      exact .ok h RA _ rfl hnd hRA
  | succ n ih =>
      intro t h RA hRA hnd
      rw [hrunTimesteps, runTimesteps]
      cases hfp : fetchPrev (readTraj h RA) t with
      | error e =>
          simp only [hfp]
          exact .err _
      | ok prev =>
          simp only [hfp]
          have hlen1 : h.length <
              (h ++ [stampMeta prev simulation subset run (t + 1)]).length := by
            simp only [List.length_append, List.length_cons, List.length_nil]
            exact Nat.lt_succ_self _
          have hp1 : hread (h ++ [stampMeta prev simulation subset run (t + 1)]) h.length =
              stampMeta prev simulation subset run (t + 1) := hread_append_len h _
          have hRA1 : ∀ a ∈ RA.flatten,
              a < (h ++ [stampMeta prev simulation subset run (t + 1)]).length :=
            fun a ha => lt_trans (hRA a ha) hlen1
          have htraj1 : readTraj (h ++ [stampMeta prev simulation subset run (t + 1)]) RA =
              readTraj h RA :=
            readTraj_congr h _ RA (fun a ha => hread_append_lt h _ a (hRA a ha))
          have hbrel := hrunBlocks_refines init params RA blocks 0
            (h ++ [stampMeta prev simulation subset run (t + 1)]) h.length []
            hlen1 hRA1 (by intro a ha; cases ha)
          rw [htraj1, hp1] at hbrel
          simp only [List.map_nil] at hbrel
          generalize hH : hrunBlocks init params RA blocks 0
            (h ++ [stampMeta prev simulation subset run (t + 1)]) h.length [] = hres at hbrel ⊢
          generalize hP : runBlocks init params (readTraj h RA) (blocks.map HBlock.toPure) 0
            (stampMeta prev simulation subset run (t + 1)) [] = pres at hbrel ⊢
          cases hbrel with
          | err e => exact .err e
          | ok h2 saddrs news ds heq hmap hle2 hframe2 hnews hnd2 =>
              have hsad : ∀ a ∈ saddrs, a ∈ news := by
                intro a ha
                rw [heq] at ha
                exact ha
              have hfr : ∀ a ∈ RA.flatten, hread h2 a = hread h a := fun a ha =>
                (hframe2 a (hRA1 a ha)).trans
                  (hread_append_lt h _ a (hRA a ha))
              have hRA2 : ∀ a ∈ (RA ++ [saddrs]).flatten, a < h2.length := by
                intro a ha
                rw [List.flatten_append] at ha
                rcases List.mem_append.mp ha with h1 | h1
                · exact lt_of_lt_of_le (hRA1 a h1) hle2
                · have h2m : a ∈ saddrs := by
                    simpa using h1
                  exact (hnews a (hsad a h2m)).2
              have hnd2' : (RA ++ [saddrs]).flatten.Nodup := by
                rw [List.flatten_append]
                refine List.Nodup.append hnd ?_ ?_
                · simp only [List.flatten_cons, List.flatten_nil, List.append_nil]
                  rw [heq]
                  simpa using hnd2
                · intro a haRA hasad
                  have ham : a ∈ saddrs := by simpa using hasad
                  have h1 := (hnews a (hsad a ham)).1
                  have h2' := hRA a haRA
                  exact absurd (lt_of_lt_of_le (lt_trans h2' hlen1) h1) (Nat.lt_irrefl _)
              have hreadTr : readTraj h2 (RA ++ [saddrs]) = readTraj h RA ++ [ds] := by
                have hsplit : readTraj h2 (RA ++ [saddrs]) =
                    readTraj h2 RA ++ [saddrs.map (hread h2)] := by
                  simp [readTraj]
                rw [hsplit, readTraj_congr h h2 RA hfr, hmap]
              have ihres := ih (t + 1) h2 (RA ++ [saddrs]) hRA2 hnd2'
              rw [hreadTr] at ihres
              exact ihres

/-- C2 (amended): within one substep each declared variable's processing
deep-clones the working substate before invoking policies and the update
function, so an update function's in-place mutation of the `substate`
argument it received is never observable — not by sibling variables of
the same substep, not in previously appended trajectory entries, and not
in the returned trajectory: the heap-level run (in which every update
function carries an arbitrary mutation of its substate argument) produces
exactly the trajectory of the pure, mutation-free model, and no two
substate *dictionary objects* of the returned trajectory alias (their
addresses are pairwise distinct).  Full snapshot isolation does *not*
hold: the snapshots are chained by shallow `PyDict::copy`, so distinct
substates share their nested container values — see
`C2_counterexample`. -/
theorem C2_isolation (simulation timesteps run subset : Nat)
    (initial_state : Dict) (blocks : List HBlock) (params : Dict) :
    (∀ h tr, h_single_run simulation timesteps run subset initial_state blocks params =
        .ok (h, tr) →
      (single_run simulation timesteps run subset initial_state
        (blocks.map HBlock.toPure) params).1 = .ok (readTraj h tr) ∧
      tr.flatten.Nodup) ∧
    (∀ e, h_single_run simulation timesteps run subset initial_state blocks params =
        .error e →
      (single_run simulation timesteps run subset initial_state
        (blocks.map HBlock.toPure) params).1 = .error e) := by
  have hrel := hrunTimesteps_refines
    (stampInitialState initial_state simulation subset run) params blocks
    simulation subset run timesteps 0
    [stampInitialState initial_state simulation subset run] [[0]]
    (by
      intro a ha
      simp only [List.flatten_cons, List.flatten_nil, List.append_nil,
        List.mem_singleton] at ha
      simp [ha])
    (by simp)
  constructor
  · intro h tr hok
    have hok' : hrunTimesteps (stampInitialState initial_state simulation subset run)
        params blocks simulation subset run timesteps 0
        [stampInitialState initial_state simulation subset run] [[0]] = .ok (h, tr) := hok
    rw [hok'] at hrel
    generalize hP : runTimesteps (stampInitialState initial_state simulation subset run)
      params (blocks.map HBlock.toPure) simulation subset run timesteps 0
      (readTraj [stampInitialState initial_state simulation subset run] [[0]]) = pres at hrel
    cases hrel with
    | ok h' tr' ptr hrd hnd hbound =>
        constructor
        · show runTimesteps (stampInitialState initial_state simulation subset run)
            params (blocks.map HBlock.toPure) simulation subset run timesteps 0
            (readTraj [stampInitialState initial_state simulation subset run] [[0]]) =
            .ok (readTraj h tr)
          rw [hP, hrd]
        · exact hnd
  · intro e herr
    have herr' : hrunTimesteps (stampInitialState initial_state simulation subset run)
        params blocks simulation subset run timesteps 0
        [stampInitialState initial_state simulation subset run] [[0]] = .error e := herr
    rw [herr'] at hrel
    generalize hP : runTimesteps (stampInitialState initial_state simulation subset run)
      params (blocks.map HBlock.toPure) simulation subset run timesteps 0
      (readTraj [stampInitialState initial_state simulation subset run] [[0]]) = pres at hrel
    cases hrel with
    | err e' =>
        show runTimesteps (stampInitialState initial_state simulation subset run)
          params (blocks.map HBlock.toPure) simulation subset run timesteps 0
          (readTraj [stampInitialState initial_state simulation subset run] [[0]]) =
          .error e
        exact hP

/-- A one-block model whose update returns `("x", 5)` but also mutates its
substate argument in place, setting `x` to `777`. -/
def C2WitnessBlocks : List HBlock :=
  [⟨[], [("x", HUpdate.fn (fun _ _ _ _ _ => .ok (.pair "x" (.int 5)))
                          (fun _ _ _ substate _ => setItem substate "x" (.int 777)))]⟩]

/-- The final heap of the heap-level run of `C2WitnessBlocks`: entry 0 is
the stamped initial state, entry 1 the timestep seed, entry 2 the substep
substate (the trajectory's), and entry 3 the mutated deep copy — the
`777` lands only in the copy, which the trajectory never references. -/
def C2WitnessHeap : Heap :=
  [[("x", Value.int 0), ("simulation", Value.int 0), ("subset", Value.int 0),
    ("run", Value.int 1), ("substep", Value.int 0), ("timestep", Value.int 0)],
   [("x", Value.int 0), ("simulation", Value.int 0), ("subset", Value.int 0),
    ("run", Value.int 1), ("substep", Value.int 0), ("timestep", Value.int 1)],
   [("x", Value.int 5), ("simulation", Value.int 0), ("subset", Value.int 0),
    ("run", Value.int 1), ("substep", Value.int 1), ("timestep", Value.int 1)],
   [("x", Value.int 777), ("simulation", Value.int 0), ("subset", Value.int 0),
    ("run", Value.int 1), ("substep", Value.int 1), ("timestep", Value.int 1)]]

/-- C2 witness: the mutating model above — the pure run reproduces the
heap run's trajectory (the in-place `777` never appears in it), and the
trajectory's substate addresses are pairwise distinct. -/
theorem C2_isolation_witness :
    (single_run 0 1 0 0 [("x", Value.int 0)] (C2WitnessBlocks.map HBlock.toPure) []).1 =
      .ok (readTraj C2WitnessHeap [[0], [2]]) ∧
    ([[0], [2]] : List (List Addr)).flatten.Nodup :=
  (C2_isolation 0 1 0 0 [("x", Value.int 0)] C2WitnessBlocks []).1
    C2WitnessHeap [[0], [2]] (by decide)

/-! ## The object-level model: container values with identity

The dict-level heap model above settles how the engine's *dictionaries*
are copied and mutated, but the trajectory snapshots are chained by
*shallow* `PyDict::copy` (lib.rs 157, 169, 178, 188-192): a copied dict is
a new dictionary object holding the *same* value objects.  For container
values this shares the nested objects between distinct substates.  To
express that, this second embedding of `single_run` gives container
values explicit identity: an `OValue` is an integer, the `NotImplemented`
object, or a reference to a mutable list object on an object heap.
Container objects are flat integer lists — one level of mutable nesting,
which is what the aliasing question needs.  Shallow dict copy carries the
references over unchanged; the per-variable pickle deep copy (lib.rs
210-211) rebuilds each referenced object fresh.  User functions observe
the heap read-only and do not themselves allocate, and the deep copy does
not memoize an object referenced twice by one dict — neither restriction
is exercised by the claims settled here. -/

/-- A Python value in the object-level model: `obj a` is a reference to
the mutable list object at address `a` of the object heap. -/
inductive OValue where
  | int : Int → OValue
  | obj : Addr → OValue
  | notImplemented : OValue
deriving DecidableEq, Repr

/-- A dictionary over object-level values. -/
abbrev ODict := List (String × OValue)

/-- The object heap: contents of the mutable list objects, by address. -/
abbrev OHeap := List (List Int)

/-- Python `dict.__setitem__` (object-level). -/
def osetItem : ODict → String → OValue → ODict
  | [], k, v => [(k, v)]
  | (k', v') :: rest, k, v =>
      if k' = k then (k, v) :: rest else (k', v') :: osetItem rest k v

/-- Python dictionary lookup (object-level). -/
def odlookup : ODict → String → Option OValue
  | [], _ => none
  | (k', v') :: rest, k => if k' = k then some v' else odlookup rest k

/-- Python `key in dict` (object-level). -/
def ocontainsKey (d : ODict) (k : String) : Bool :=
  (odlookup d k).isSome

/-- `pickle.dumps`/`loads` of a dictionary (lib.rs 210-211): every
referenced container object is rebuilt fresh on the heap, entry by entry;
integers are immutable and copied by value.  This is precisely what makes
the per-variable copy *deep*, unlike the `PyDict::copy` snapshots. -/
def odeepCopy : ODict → OHeap → ODict × OHeap
  | [], h => ([], h)
  | (k, .obj a) :: rest, h =>
      let fresh := h.length
      let h1 := h ++ [(h.get? a).getD []]
      let (d', h') := odeepCopy rest h1
      ((k, .obj fresh) :: d', h')
  | (k, v) :: rest, h =>
      let (d', h') := odeepCopy rest h
      ((k, v) :: d', h')

/-- `value_.call_method("__add__", (value,))` at object level (lib.rs
367): int + int adds; `int.__add__` on anything else returns
`NotImplemented`; list + list allocates the concatenation as a fresh
object; `list.__add__` and `NotImplemented.__add__` on anything else
raise. -/
def oaddCall (h : OHeap) : OValue → OValue → Option (OValue × OHeap)
  | .int a, .int b => some (.int (a + b), h)
  | .int _, _ => some (.notImplemented, h)
  | .obj a, .obj b =>
      some (.obj h.length, h ++ [((h.get? a).getD []) ++ ((h.get? b).getD [])])
  | .obj _, _ => none
  | .notImplemented, _ => none

/-- What a policy call returns at object level. -/
inductive OPolicyRet where
  | dict : ODict → OPolicyRet
  | nonDict : OPolicyRet

/-- A policy target at object level; callables observe the object heap
read-only alongside their regular arguments. -/
inductive OPolicy where
  | notCallableObj : OPolicy
  | fn : (ODict → Nat → List (List ODict) → ODict → OHeap → Except PyExc OPolicyRet) → OPolicy

/-- What a state-update call returns at object level. -/
inductive OUpdateRet where
  | pair : String → OValue → OUpdateRet
  | nonTuple : OUpdateRet

/-- A state-update target at object level. -/
inductive OUpdate where
  | notCallableObj : OUpdate
  | fn : (ODict → Nat → List (List ODict) → ODict → ODict → OHeap → Except PyExc OUpdateRet) → OUpdate

/-- A partial state update block at object level. -/
structure OBlock where
  policies : List (String × OPolicy)
  vars : List (String × OUpdate)

/-- `function.call(...)` on an object-level policy target. -/
def ocallPolicy (f : OPolicy) (params : ODict) (substep : Nat)
    (result : List (List ODict)) (substate : ODict) (h : OHeap) :
    Except PyExc OPolicyRet :=
  match f with
  | .notCallableObj => .error (.typeError "object is not callable")
  | .fn g => g params substep result substate h

/-- lib.rs 326-352 at object level. -/
def ogatherPolicyResults (params : ODict) (substep : Nat)
    (result : List (List ODict)) (substate : ODict) (h : OHeap) :
    List (String × OPolicy) → Except EngineFailure (List ODict)
  | [] => .ok []
  | (_, f) :: rest =>
      match ocallPolicy f params substep result substate h with
      | .error e => .error (.exc (.wrapped e))
      | .ok .nonDict =>
          .error (.exc (.runtimeError "Failed to extract policy function result as dictionary"))
      | .ok (.dict d) =>
          match ogatherPolicyResults params substep result substate h rest with
          | .error e => .error e
          | .ok ds => .ok (d :: ds)

/-- lib.rs 361-376 at object level — the `__add__` combination may
allocate (list concatenation), so the heap is threaded through. -/
def omergeInto : OHeap → ODict → ODict → Except EngineFailure (ODict × OHeap)
  | h, acc, [] => .ok (acc, h)
  | h, acc, (k, v) :: rest =>
      match odlookup acc k with
      | some v0 =>
          match oaddCall h v0 v with
          | some (sv, h') => omergeInto h' (osetItem acc k sv) rest
          | none => .error .mergePanic
      | none => omergeInto h (osetItem acc k v) rest

/-- lib.rs 360-378 at object level. -/
def omergeAll : OHeap → ODict → List ODict → Except EngineFailure (ODict × OHeap)
  | h, acc, [] => .ok (acc, h)
  | h, acc, d :: ds =>
      match omergeInto h acc d with
      | .error e => .error e
      | .ok (acc', h') => omergeAll h' acc' ds

/-- lib.rs 317-381 at object level. -/
def oreduce_signals (params : ODict) (substep : Nat) (result : List (List ODict))
    (substate : ODict) (policies : List (String × OPolicy)) (h : OHeap) :
    Except EngineFailure (ODict × OHeap) :=
  match ogatherPolicyResults params substep result substate h policies with
  | .error e => .error e
  | .ok rs =>
      match rs with
      | [] => .ok ([], h)
      | [d] => .ok (d, h)
      | _ => omergeAll h [] rs

/-- lib.rs 256-275 at object level. -/
def oapplyUpdate (init : ODict) (state : String) (substate : ODict) :
    OUpdateRet → Except EngineFailure ODict
  | .nonTuple =>
      .error (.exc (.runtimeError "Failed to extract state update function result as tuple"))
  | .pair k v =>
      if ocontainsKey init k = false then
        .error (.exc (.keyError "Invalid state key returned from state update function"))
      else if state = k then
        .ok (osetItem substate k v)
      else
        .error (.exc (.keyError
          ("PSU state key " ++ state ++ " doesn't match function state key " ++ k)))

/-- lib.rs 197-276 at object level: the pickle deep copy rebuilds the
referenced objects; the `PyDict::copy` snapshots elsewhere do not. -/
def oprocessVariable (init params : ODict) (substep : Nat)
    (result : List (List ODict)) (policies : List (String × OPolicy))
    (state : String) (function : OUpdate) (substate : ODict) (h : OHeap) :
    Except EngineFailure (ODict × OHeap) :=
  if ocontainsKey init state = false then
    .error (.exc (.keyError "Invalid state key in partial state update block"))
  else
    let (substate_copy, h1) := odeepCopy substate h
    match oreduce_signals params substep result substate_copy policies h1 with
    | .error e => .error (wrapRun e)
    | .ok (signals, h2) =>
        match function with
        | .notCallableObj =>
            .error (.exc (.typeError "State update function is not callable"))
        | .fn f =>
            match f params substep result substate_copy signals h2 with
            | .error e => .error (.exc (.wrapped e))
            | .ok ret =>
                match oapplyUpdate init state substate ret with
                | .error e => .error e
                | .ok substate' => .ok (substate', h2)

/-- The per-block variable loop at object level. -/
def orunVariables (init params : ODict) (substep : Nat)
    (result : List (List ODict)) (policies : List (String × OPolicy)) :
    List (String × OUpdate) → ODict → OHeap → Except EngineFailure (ODict × OHeap)
  | [], substate, h => .ok (substate, h)
  | (state, function) :: rest, substate, h =>
      match oprocessVariable init params substep result policies state function substate h with
      | .error e => .error e
      | .ok (substate', h') =>
          orunVariables init params substep result policies rest substate' h'

/-- lib.rs 186-283 at object level: each substep's substate is a shallow
`PyDict::copy` of the previous one — a fresh dictionary carrying the
*same* value objects. -/
def orunBlocks (init params : ODict) (result : List (List ODict)) :
    List OBlock → Nat → ODict → List ODict → OHeap →
    Except EngineFailure (List ODict × OHeap)
  | [], _, _, substeps, h => .ok (substeps, h)
  | blk :: rest, s, base, substeps, h =>
      let substate0 := osetItem base "substep" (.int (s + 1))
      match orunVariables init params s result blk.policies blk.vars substate0 h with
      | .error e => .error e
      | .ok (substate, h') =>
          orunBlocks init params result rest (s + 1) substate (substeps ++ [substate]) h'

/-- lib.rs 162-180 at object level. -/
def ofetchPrev (result : List (List ODict)) : Nat → Except EngineFailure ODict
  | 0 =>
      match result with
      | (d :: _) :: _ => .ok d
      | _ => .error .fetchPrevPanic
  | _ + 1 =>
      match result.getLast? with
      | none => .error .fetchPrevPanic
      | some substates =>
          match substates.getLast? with
          | none => .error .fetchPrevPanic
          | some d => .ok d

/-- lib.rs 151-155 at object level. -/
def ostampInitialState (d : ODict) (simulation subset run : Nat) : ODict :=
  osetItem (osetItem (osetItem (osetItem (osetItem d
    "simulation" (.int simulation))
    "subset" (.int subset))
    "run" (.int (run + 1)))
    "substep" (.int 0))
    "timestep" (.int 0)

/-- lib.rs 181-184 at object level. -/
def ostampMeta (d : ODict) (simulation subset run timestep : Nat) : ODict :=
  osetItem (osetItem (osetItem (osetItem d
    "simulation" (.int simulation))
    "subset" (.int subset))
    "run" (.int (run + 1)))
    "timestep" (.int timestep)

/-- lib.rs 160-285 at object level.  The timestep seed at lib.rs 169/178
is a shallow `PyDict::copy` of a trajectory substate: the copy is a fresh
dictionary, but its container values are the very objects held by the
substate already appended to the trajectory. -/
def orunTimesteps (init params : ODict) (blocks : List OBlock)
    (simulation subset run : Nat) :
    Nat → Nat → List (List ODict) → OHeap →
    Except EngineFailure (List (List ODict) × OHeap)
  | 0, _, result, h => .ok (result, h)
  | n + 1, t, result, h =>
      match ofetchPrev result t with
      | .error e => .error e
      | .ok prev =>
          let prev' := ostampMeta prev simulation subset run (t + 1)
          match orunBlocks init params result blocks 0 prev' [] h with
          | .error e => .error e
          | .ok (substeps, h') =>
              orunTimesteps init params blocks simulation subset run n (t + 1)
                (result ++ [substeps]) h'

/-- lib.rs 136-288 at object level.  First component: the run outcome
(trajectory and final object heap); second component: the caller's
`initial_state` dictionary after the in-place stamping. -/
def o_single_run (simulation timesteps run subset : Nat) (initial_state : ODict)
    (blocks : List OBlock) (params : ODict) (h : OHeap) :
    Except EngineFailure (List (List ODict) × OHeap) × ODict :=
  let init := ostampInitialState initial_state simulation subset run
  (orunTimesteps init params blocks simulation subset run timesteps 0 [[init]] h,
   init)

/-- C2 counterexample: the claim's "no Substate aliases any other
Substate" conjunct is false. For `initial_state = {xs: <list [1,2]>}` and
a single block with no variables, the run succeeds and the trajectory's
two substates — the stamped initial snapshot (timestep 0) and the
timestep-1 substate, distinct dictionaries with different metadata —
both hold the reference `obj 0` under `xs`: the shallow `PyDict::copy`
chain (lib.rs 157, 169, 188) shares the nested list object between
them. -/
theorem C2_counterexample :
    (o_single_run 0 1 0 0 [("xs", OValue.obj 0)] [⟨[], []⟩] [] [[1, 2]]).1 =
      .ok ([[[("xs", OValue.obj 0), ("simulation", OValue.int 0),
              ("subset", OValue.int 0), ("run", OValue.int 1),
              ("substep", OValue.int 0), ("timestep", OValue.int 0)]],
            [[("xs", OValue.obj 0), ("simulation", OValue.int 0),
              ("subset", OValue.int 0), ("run", OValue.int 1),
              ("substep", OValue.int 1), ("timestep", OValue.int 1)]]],
           [[1, 2]]) ∧
    odlookup [("xs", OValue.obj 0), ("simulation", OValue.int 0),
              ("subset", OValue.int 0), ("run", OValue.int 1),
              ("substep", OValue.int 0), ("timestep", OValue.int 0)] "xs" =
      some (OValue.obj 0) ∧
    odlookup [("xs", OValue.obj 0), ("simulation", OValue.int 0),
              ("subset", OValue.int 0), ("run", OValue.int 1),
              ("substep", OValue.int 1), ("timestep", OValue.int 1)] "xs" =
      some (OValue.obj 0) ∧
    ([("xs", OValue.obj 0), ("simulation", OValue.int 0),
      ("subset", OValue.int 0), ("run", OValue.int 1),
      ("substep", OValue.int 0), ("timestep", OValue.int 0)] : ODict) ≠
    [("xs", OValue.obj 0), ("simulation", OValue.int 0),
     ("subset", OValue.int 0), ("run", OValue.int 1),
     ("substep", OValue.int 1), ("timestep", OValue.int 1)] := by
  refine ⟨by decide, by decide, by decide, by decide⟩

end RadCAD
